import Mathlib

/-!
Verification of the NVMe command/completion engine (`nvme_cmd.c`, `nvme_cpl.c`)
against its natural-language specification.  The C code is shallowly embedded:
machine integers become `Nat` with explicit `% 2^w` where overflow matters,
pointers become indices/`Option`, and each C function becomes a Lean function
over an explicit state record.
-/

set_option maxRecDepth 10000

namespace NvmeDrv

/-! ### Constants

Constants from the driver header `nvmedrv.h` (the header itself is not in the
repository sources; only the `.c` files are).  Values that the spec states
explicitly (I/O opcodes, queue sizes, pool size) are taken from the spec;
the remaining numeric values (SCSI CDB opcodes, NVMe status codes, IRIX SCSI
status words) are the standard on-wire values these symbols always denote.
-/

/-- NVMe I/O opcode FLUSH = 0x00 (spec §6). -/
def NVME_CMD_FLUSH : Nat := 0x00
/-- NVMe I/O opcode WRITE = 0x01 (spec §6). -/
def NVME_CMD_WRITE : Nat := 0x01
/-- NVME I/O opcode READ = 0x02 (spec §6). -/
def NVME_CMD_READ : Nat := 0x02

/-- Modelled from the spec: SCSI CDB opcode READ(6) (header `nvmedrv.h` missing;
standard SCSI value). -/
def SCSIOP_READ_6 : Nat := 0x08
/-- Modelled from the spec: SCSI CDB opcode WRITE(6). -/
def SCSIOP_WRITE_6 : Nat := 0x0A
/-- Modelled from the spec: SCSI CDB opcode READ(10). -/
def SCSIOP_READ_10 : Nat := 0x28
/-- Modelled from the spec: SCSI CDB opcode WRITE(10). -/
def SCSIOP_WRITE_10 : Nat := 0x2A
/-- Modelled from the spec: SCSI CDB opcode READ(16). -/
def SCSIOP_READ_16 : Nat := 0x88
/-- Modelled from the spec: SCSI CDB opcode WRITE(16). -/
def SCSIOP_WRITE_16 : Nat := 0x8A

/-- NVMe generic status: success (spec §4.6 "success (type=0, code=0)"). -/
def NVME_SC_SUCCESS : Nat := 0x00
/-- Modelled from the spec: NVMe generic status Invalid Opcode (standard value). -/
def NVME_SC_INVALID_OPCODE : Nat := 0x01
/-- Modelled from the spec: NVMe generic status Invalid Field (standard value). -/
def NVME_SC_INVALID_FIELD : Nat := 0x02
/-- Modelled from the spec: NVMe generic status Data Transfer Error (standard value). -/
def NVME_SC_DATA_XFER_ERROR : Nat := 0x04
/-- Modelled from the spec: NVMe generic status Internal Error (standard value). -/
def NVME_SC_INTERNAL : Nat := 0x06
/-- Modelled from the spec: NVMe generic status Invalid Namespace (standard value). -/
def NVME_SC_INVALID_NS : Nat := 0x0B
/-- Modelled from the spec: NVMe generic status LBA Out of Range (standard value). -/
def NVME_SC_LBA_RANGE : Nat := 0x80

/-- Modelled from the spec: IRIX adapter status SC_GOOD (distinct value). -/
def SC_GOOD : Nat := 0x00
/-- Modelled from the spec: IRIX adapter status SC_REQUEST (distinct value). -/
def SC_REQUEST : Nat := 0x04
/-- Modelled from the spec: SCSI status byte GOOD. -/
def ST_GOOD : Nat := 0x00
/-- Modelled from the spec: SCSI status byte CHECK CONDITION. -/
def ST_CHECK : Nat := 0x02
/-- Modelled from the spec: SCSI status byte BUSY. -/
def ST_BUSY : Nat := 0x08

/-- Number of I/O CID slots N = 256 (spec §4.2, code bitmap 8 words x 32 bits). -/
def NVME_IO_QUEUE_SIZE : Nat := 256
/-- PRP pool size P = 64 pages (spec §4.1; 64-bit pool bitmap in the code). -/
def NVME_PRP_POOL_SIZE : Nat := 64
/-- Modelled from the spec: maximum PRP list pages one sub-command may own
(`prp_indices[M]`, spec §4.2; header value not in sources, any fixed bound). -/
def NVME_CMD_MAX_PRPS : Nat := 32
/-- Modelled from the spec: reserved flush CID, outside the I/O CID range 0..255
(spec §3 "it must lie outside the I/O CID allocation range"). -/
def NVME_IO_CID_FLUSH : Nat := 0x100

/-! ### Data model -/

/-- The 64-byte NVMe command, one field per 32-bit word (`nvme_command_t`). -/
structure NvmeCommand where
  cdw0 : Nat := 0
  nsid : Nat := 0
  cdw2 : Nat := 0
  cdw3 : Nat := 0
  mptr_lo : Nat := 0
  mptr_hi : Nat := 0
  prp1_lo : Nat := 0
  prp1_hi : Nat := 0
  prp2_lo : Nat := 0
  prp2_hi : Nat := 0
  cdw10 : Nat := 0
  cdw11 : Nat := 0
  cdw12 : Nat := 0
  cdw13 : Nat := 0
  cdw14 : Nat := 0
  cdw15 : Nat := 0
  deriving Repr, DecidableEq

/-- `PHYS64_LO`: low 32 bits of a 64-bit physical address. -/
def PHYS64_LO (a : Nat) : Nat := a % 2 ^ 32

/-- `PHYS64_HI`: high 32 bits of a 64-bit physical address. -/
def PHYS64_HI (a : Nat) : Nat := a / 2 ^ 32 % 2 ^ 32

/-- Queue-pair state read and written by `nvme_submit_cmd` (`nvme_queue_t`).
`sq` is the submission ring; MMIO doorbell writes are returned separately. -/
structure NvmeQueue where
  sq : List NvmeCommand
  sq_head : Nat
  sq_tail : Nat
  size : Nat
  size_mask : Nat
  sq_doorbell : Nat
  deriving Repr, DecidableEq

/-! ### `nvme_submit_cmd` (nvme_cmd.c:16-112) -/

/-- Shallow embedding of `nvme_submit_cmd`.  Returns the C return value,
the updated queue, and the list of MMIO doorbell writes `(offset, value)`
performed.  The lock acquire/release brackets the whole body and is not
modelled; debug-only code under `NVME_DBG*` / `NVME_COMPLETION_*` is elided. -/
def nvme_submit_cmd (q : NvmeQueue) (cmd : NvmeCommand) :
    Int × NvmeQueue × List (Nat × Nat) :=
  let next_tail := (q.sq_tail + 1) &&& q.size_mask
  if next_tail = q.sq_head then
    (-1, q, [])
  else
    let q' := { q with sq := q.sq.set q.sq_tail cmd, sq_tail := next_tail }
    (0, q', [(q.sq_doorbell, next_tail)])

end NvmeDrv

namespace NvmeDrv

/-- A queue whose geometry fields are consistent: power-of-two size with
`size_mask = size - 1`, and in-range head/tail. -/
def QueueWF (q : NvmeQueue) : Prop :=
  (∃ k, q.size = 2 ^ k) ∧ q.size_mask = q.size - 1 ∧
    q.sq_tail < q.size ∧ q.sq_head < q.size ∧ q.sq.length = q.size

theorem queueWF_mask_mod {q : NvmeQueue} (h : QueueWF q) (x : Nat) :
    x &&& q.size_mask = x % q.size := by
  obtain ⟨⟨k, hk⟩, hm, _⟩ := h
  rw [hm, hk]
  exact Nat.and_pow_two_sub_one_eq_mod x k

end NvmeDrv

namespace NvmeDrv

/-- C1: on a queue with `(sq_tail + 1) % size = sq_head` (full), `nvme_submit_cmd`
returns -1, leaves the queue (tail and all SQ entries) unchanged and performs no
doorbell write; otherwise it copies the command into `sq[sq_tail]`, advances
`sq_tail` to `(sq_tail + 1) % size`, writes exactly that new tail value to the SQ
doorbell, and returns 0. -/
theorem submit_cmd_full_refused_else_enqueue (q : NvmeQueue) (cmd : NvmeCommand)
    (hwf : QueueWF q) :
    (((q.sq_tail + 1) % q.size = q.sq_head →
        nvme_submit_cmd q cmd = (-1, q, [])) ∧
     ((q.sq_tail + 1) % q.size ≠ q.sq_head →
        nvme_submit_cmd q cmd =
          (0, { q with sq := q.sq.set q.sq_tail cmd,
                       sq_tail := (q.sq_tail + 1) % q.size },
           [(q.sq_doorbell, (q.sq_tail + 1) % q.size)]))) := by
  have hmod := queueWF_mask_mod hwf (q.sq_tail + 1)
  constructor
  · intro hfull
    unfold nvme_submit_cmd
    simp only [hmod, hfull, if_true, eq_self_iff_true]
  · intro hnot
    unfold nvme_submit_cmd
    simp only [hmod, if_neg hnot]

/-- Closed witness for C1: a concrete 4-entry queue exercised both at the full
boundary and in the normal path. -/
theorem submit_cmd_full_refused_else_enqueue_witness :
    (let qfull : NvmeQueue :=
      { sq := List.replicate 4 {}, sq_head := 2, sq_tail := 1, size := 4,
        size_mask := 3, sq_doorbell := 0x1008 }
     nvme_submit_cmd qfull {} = (-1, qfull, [])) ∧
    (let q : NvmeQueue :=
      { sq := List.replicate 4 {}, sq_head := 0, sq_tail := 1, size := 4,
        size_mask := 3, sq_doorbell := 0x1008 }
     nvme_submit_cmd q { cdw0 := 0x42 } =
       (0, { q with sq := q.sq.set 1 { cdw0 := 0x42 }, sq_tail := 2 },
        [(0x1008, 2)])) := by
  refine ⟨?_, ?_⟩
  · exact (submit_cmd_full_refused_else_enqueue _ {}
      ⟨⟨2, rfl⟩, rfl, by decide, by decide, by decide⟩).1 (by decide)
  · exact (submit_cmd_full_refused_else_enqueue _ { cdw0 := 0x42 }
      ⟨⟨2, rfl⟩, rfl, by decide, by decide, by decide⟩).2 (by decide)

/-! ### SCSI → NVMe read/write translation (nvme_cmd.c:365-496) -/

/-- Controller soft-state fields read by the command and PRP builders
(`nvme_soft_t`). -/
structure SoftCfg where
  max_transfer_blocks : Nat
  block_size : Nat
  nvme_page_size : Nat
  nvme_prp_entries : Nat
  prp_pool_phys : Nat
  deriving Repr, DecidableEq

/-- 2^32, the modulus of C `unsigned int` arithmetic. -/
def UINT32_MOD : Nat := 2 ^ 32
/-- 2^64, the modulus of C `__uint64_t` arithmetic. -/
def UINT64_MOD : Nat := 2 ^ 64

/-- Result of the CDB-parsing switch in `nvme_io_build_rw_command`:
either the extracted `(lba, num_blocks, is_write)` or the unsupported-opcode
error (C `return 0`). -/
inductive RwParse where
  | unsupported
  | ok (lba : Nat) (num_blocks : Nat) (is_write : Bool)
  deriving Repr, DecidableEq

/-- The CDB-parsing switch of `nvme_io_build_rw_command`
(nvme_cmd.c:379-463).  `cdb` is the list of CDB bytes (`req->sr_command`). -/
def nvme_parse_rw_cdb (cdb : List Nat) : RwParse :=
  let cdb_opcode := cdb.getD 0 0
  if cdb_opcode = SCSIOP_READ_6 ∨ cdb_opcode = SCSIOP_WRITE_6 then
    let lba := (((cdb.getD 1 0) &&& 0x1F) <<< 16) |||
               ((cdb.getD 2 0) <<< 8) ||| (cdb.getD 3 0)
    let num_blocks := cdb.getD 4 0
    let num_blocks := if num_blocks = 0 then 256 else num_blocks
    .ok lba num_blocks (decide (cdb_opcode = SCSIOP_WRITE_6))
  else if cdb_opcode = SCSIOP_READ_10 ∨ cdb_opcode = SCSIOP_WRITE_10 then
    let lba := ((cdb.getD 2 0) <<< 24) ||| ((cdb.getD 3 0) <<< 16) |||
               ((cdb.getD 4 0) <<< 8) ||| (cdb.getD 5 0)
    let num_blocks := ((cdb.getD 7 0) <<< 8) ||| (cdb.getD 8 0)
    .ok lba num_blocks (decide (cdb_opcode = SCSIOP_WRITE_10))
  else if cdb_opcode = SCSIOP_READ_16 ∨ cdb_opcode = SCSIOP_WRITE_16 then
    let lba := ((cdb.getD 2 0) <<< 56) ||| ((cdb.getD 3 0) <<< 48) |||
               ((cdb.getD 4 0) <<< 40) ||| ((cdb.getD 5 0) <<< 32) |||
               ((cdb.getD 6 0) <<< 24) ||| ((cdb.getD 7 0) <<< 16) |||
               ((cdb.getD 8 0) <<< 8) ||| (cdb.getD 9 0)
    let num_blocks := ((cdb.getD 10 0) <<< 24) ||| ((cdb.getD 11 0) <<< 16) |||
                      ((cdb.getD 12 0) <<< 8) ||| (cdb.getD 13 0)
    .ok lba num_blocks (decide (cdb_opcode = SCSIOP_WRITE_16))
  else
    .unsupported

/-- Lines 465-496 of `nvme_io_build_rw_command`: adjust LBA / block count for
the sub-command index (C `unsigned int` / `__uint64_t` wrap-around made
explicit) and emit the NVMe command words.  The C body computes
`cmd_index * max_transfer_blocks` in 32-bit arithmetic, adds it to the 64-bit
LBA, and subtracts it from the 32-bit block count before clamping to
`max_transfer_blocks`. -/
def nvme_rw_adjust_emit (soft : SoftCfg) (lba0 num_blocks0 : Nat)
    (is_write : Bool) (cmd_index : Nat) : NvmeCommand :=
  let adj := cmd_index * soft.max_transfer_blocks % UINT32_MOD
  let lba := (lba0 + adj) % UINT64_MOD
  let num_blocks := (num_blocks0 + (UINT32_MOD - adj)) % UINT32_MOD
  let num_blocks := if num_blocks > soft.max_transfer_blocks then
      soft.max_transfer_blocks else num_blocks
  { cdw0 := if is_write then NVME_CMD_WRITE else NVME_CMD_READ,
    nsid := 1,
    cdw10 := lba &&& 0xFFFFFFFF,
    cdw11 := lba >>> 32,
    cdw12 := if num_blocks > 0 then num_blocks - 1 else 0 }

/-- Shallow embedding of `nvme_io_build_rw_command` (nvme_cmd.c:365-496).
`none` is the C `return 0` (unsupported CDB opcode); PRP fields are left for
`nvme_build_prps_from_alenlist`. -/
def nvme_io_build_rw_command (soft : SoftCfg) (cdb : List Nat)
    (cmd_index : Nat) : Option NvmeCommand :=
  match nvme_parse_rw_cdb cdb with
  | .unsupported => none
  | .ok lba num_blocks is_write =>
      some (nvme_rw_adjust_emit soft lba num_blocks is_write cmd_index)

/-- A value ORed with a multiple of `2^n` below it adds: the byte-assembly
`(hi << n) | lo` in the CDB parser equals `hi * 2^n + lo`. -/
theorem lor_mul_pow_add (a b n : Nat) (hb : b < 2 ^ n) :
    a * 2 ^ n ||| b = a * 2 ^ n + b := by
  induction n generalizing a b with
  | zero =>
    interval_cases b
    simp
  | succ n ih =>
    have hb2 : b / 2 < 2 ^ n := by
      have : (2 : Nat) ^ (n + 1) = 2 * 2 ^ n := by ring
      omega
    have hu2 : a * 2 ^ (n + 1) / 2 = a * 2 ^ n := by
      have : a * 2 ^ (n + 1) = (a * 2 ^ n) * 2 := by ring
      rw [this, Nat.mul_div_cancel _ (by norm_num)]
    have hdiv : (a * 2 ^ (n + 1) ||| b) / 2 = a * 2 ^ n ||| b / 2 := by
      rw [Nat.or_div_two, hu2]
    have humod : a * 2 ^ (n + 1) % 2 = 0 := by
      have : a * 2 ^ (n + 1) = (a * 2 ^ n) * 2 := by ring
      omega
    have hmod : (a * 2 ^ (n + 1) ||| b) % 2 = b % 2 := by
      have h1 := Nat.or_mod_two_eq_one (a := a * 2 ^ (n + 1)) (b := b)
      have h2 : (a * 2 ^ (n + 1) ||| b) % 2 < 2 := Nat.mod_lt _ (by norm_num)
      have h3 : b % 2 < 2 := Nat.mod_lt _ (by norm_num)
      omega
    have hrec := ih a (b / 2) hb2
    have hsplit := Nat.div_add_mod (a * 2 ^ (n + 1) ||| b) 2
    have hbsplit := Nat.div_add_mod b 2
    have hpow : (2 : Nat) ^ (n + 1) = 2 * 2 ^ n := by ring
    rw [hdiv, hrec] at hsplit
    omega

theorem shift_lor_add (a b n : Nat) (hb : b < 2 ^ n) :
    a <<< n ||| b = a * 2 ^ n + b := by
  rw [Nat.shiftLeft_eq]
  exact lor_mul_pow_add a b n hb

/-- Two-byte big-endian assembly `(hi << 8) | lo`. -/
theorem asm2 (x1 x0 : Nat) (h0 : x0 < 256) :
    x1 <<< 8 ||| x0 = x1 * 256 + x0 := by
  have := shift_lor_add x1 x0 8 (by norm_num; omega)
  norm_num at this
  omega

/-- Four-byte big-endian assembly. -/
theorem asm4 (x3 x2 x1 x0 : Nat) (h2 : x2 < 256) (h1 : x1 < 256)
    (h0 : x0 < 256) :
    x3 <<< 24 ||| x2 <<< 16 ||| x1 <<< 8 ||| x0 =
      x3 * 16777216 + x2 * 65536 + x1 * 256 + x0 := by
  rw [Nat.lor_assoc, Nat.lor_assoc, asm2 x1 x0 h0]
  have h16 := shift_lor_add x2 (x1 * 256 + x0) 16 (by norm_num; omega)
  norm_num at h16
  rw [h16]
  have h24 := shift_lor_add x3 (x2 * 65536 + (x1 * 256 + x0)) 24
    (by norm_num; omega)
  norm_num at h24
  omega

/-- Eight-byte big-endian assembly. -/
theorem asm8 (x7 x6 x5 x4 x3 x2 x1 x0 : Nat) (h6 : x6 < 256) (h5 : x5 < 256)
    (h4 : x4 < 256) (h3 : x3 < 256) (h2 : x2 < 256) (h1 : x1 < 256)
    (h0 : x0 < 256) :
    x7 <<< 56 ||| x6 <<< 48 ||| x5 <<< 40 ||| x4 <<< 32 |||
      x3 <<< 24 ||| x2 <<< 16 ||| x1 <<< 8 ||| x0 =
    x7 * 72057594037927936 + x6 * 281474976710656 + x5 * 1099511627776 +
      x4 * 4294967296 + x3 * 16777216 + x2 * 65536 + x1 * 256 + x0 := by
  rw [Nat.lor_assoc, Nat.lor_assoc, Nat.lor_assoc, Nat.lor_assoc,
    Nat.lor_assoc, Nat.lor_assoc, asm2 x1 x0 h0]
  have h16 := shift_lor_add x2 (x1 * 256 + x0) 16 (by norm_num; omega)
  norm_num at h16
  rw [h16]
  have h24 := shift_lor_add x3 (x2 * 65536 + (x1 * 256 + x0)) 24
    (by norm_num; omega)
  norm_num at h24
  rw [h24]
  have h32 := shift_lor_add x4
    (x3 * 16777216 + (x2 * 65536 + (x1 * 256 + x0))) 32 (by norm_num; omega)
  norm_num at h32
  rw [h32]
  have h40 := shift_lor_add x5
    (x4 * 4294967296 + (x3 * 16777216 + (x2 * 65536 + (x1 * 256 + x0)))) 40
    (by norm_num; omega)
  norm_num at h40
  rw [h40]
  have h48 := shift_lor_add x6
    (x5 * 1099511627776 +
      (x4 * 4294967296 + (x3 * 16777216 + (x2 * 65536 + (x1 * 256 + x0))))) 48
    (by norm_num; omega)
  norm_num at h48
  rw [h48]
  have h56 := shift_lor_add x7
    (x6 * 281474976710656 + (x5 * 1099511627776 +
      (x4 * 4294967296 + (x3 * 16777216 + (x2 * 65536 + (x1 * 256 + x0)))))) 56
    (by norm_num; omega)
  norm_num at h56
  omega

/-- The parser on a READ(10) CDB extracts the 4-byte LBA and 2-byte length. -/
theorem parse_read10 (b1 b2 b3 b4 b5 b6 b7 b8 b9 : Nat)
    (h3 : b3 < 256) (h4 : b4 < 256) (h5 : b5 < 256) (h8 : b8 < 256) :
    nvme_parse_rw_cdb [SCSIOP_READ_10, b1, b2, b3, b4, b5, b6, b7, b8, b9] =
      .ok (b2 * 16777216 + b3 * 65536 + b4 * 256 + b5) (b7 * 256 + b8)
        false := by
  show RwParse.ok (b2 <<< 24 ||| b3 <<< 16 ||| b4 <<< 8 ||| b5)
      (b7 <<< 8 ||| b8) false = _
  rw [asm4 b2 b3 b4 b5 h3 h4 h5, asm2 b7 b8 h8]

/-- The parser on a WRITE(10) CDB. -/
theorem parse_write10 (b1 b2 b3 b4 b5 b6 b7 b8 b9 : Nat)
    (h3 : b3 < 256) (h4 : b4 < 256) (h5 : b5 < 256) (h8 : b8 < 256) :
    nvme_parse_rw_cdb [SCSIOP_WRITE_10, b1, b2, b3, b4, b5, b6, b7, b8, b9] =
      .ok (b2 * 16777216 + b3 * 65536 + b4 * 256 + b5) (b7 * 256 + b8)
        true := by
  show RwParse.ok (b2 <<< 24 ||| b3 <<< 16 ||| b4 <<< 8 ||| b5)
      (b7 <<< 8 ||| b8) true = _
  rw [asm4 b2 b3 b4 b5 h3 h4 h5, asm2 b7 b8 h8]

/-- The parser on a READ(6) CDB: 21-bit LBA (5 low bits of byte 1), 1-byte
length with 0 meaning 256 blocks. -/
theorem parse_read6 (b1 b2 b3 b4 : Nat) (h2 : b2 < 256) (h3 : b3 < 256) :
    nvme_parse_rw_cdb [SCSIOP_READ_6, b1, b2, b3, b4, 0] =
      .ok (b1 % 32 * 65536 + b2 * 256 + b3)
        (if b4 = 0 then 256 else b4) false := by
  show RwParse.ok ((b1 &&& 0x1F) <<< 16 ||| b2 <<< 8 ||| b3) _ false = _
  have hand : b1 &&& 0x1F = b1 % 32 := by
    have := Nat.and_pow_two_sub_one_eq_mod b1 5
    norm_num at this
    exact this
  rw [Nat.lor_assoc, asm2 b2 b3 h3, hand]
  have h16 := shift_lor_add (b1 % 32) (b2 * 256 + b3) 16 (by norm_num; omega)
  norm_num at h16
  rw [h16, show [SCSIOP_READ_6, b1, b2, b3, b4, 0].getD 4 0 = b4 from rfl,
    Nat.add_assoc]

/-- The parser on a WRITE(6) CDB. -/
theorem parse_write6 (b1 b2 b3 b4 : Nat) (h2 : b2 < 256) (h3 : b3 < 256) :
    nvme_parse_rw_cdb [SCSIOP_WRITE_6, b1, b2, b3, b4, 0] =
      .ok (b1 % 32 * 65536 + b2 * 256 + b3)
        (if b4 = 0 then 256 else b4) true := by
  show RwParse.ok ((b1 &&& 0x1F) <<< 16 ||| b2 <<< 8 ||| b3) _ true = _
  have hand : b1 &&& 0x1F = b1 % 32 := by
    have := Nat.and_pow_two_sub_one_eq_mod b1 5
    norm_num at this
    exact this
  rw [Nat.lor_assoc, asm2 b2 b3 h3, hand]
  have h16 := shift_lor_add (b1 % 32) (b2 * 256 + b3) 16 (by norm_num; omega)
  norm_num at h16
  rw [h16, show [SCSIOP_WRITE_6, b1, b2, b3, b4, 0].getD 4 0 = b4 from rfl,
    Nat.add_assoc]

/-- The parser on a READ(16) CDB: 8-byte LBA, 4-byte length. -/
theorem parse_read16 (b1 b2 b3 b4 b5 b6 b7 b8 b9 b10 b11 b12 b13 b14 b15 : Nat)
    (h3 : b3 < 256) (h4 : b4 < 256) (h5 : b5 < 256) (h6 : b6 < 256)
    (h7 : b7 < 256) (h8 : b8 < 256) (h9 : b9 < 256)
    (h11 : b11 < 256) (h12 : b12 < 256) (h13 : b13 < 256) :
    nvme_parse_rw_cdb [SCSIOP_READ_16, b1, b2, b3, b4, b5, b6, b7, b8, b9,
        b10, b11, b12, b13, b14, b15] =
      .ok (b2 * 72057594037927936 + b3 * 281474976710656 +
             b4 * 1099511627776 + b5 * 4294967296 + b6 * 16777216 +
             b7 * 65536 + b8 * 256 + b9)
          (b10 * 16777216 + b11 * 65536 + b12 * 256 + b13) false := by
  show RwParse.ok
      (b2 <<< 56 ||| b3 <<< 48 ||| b4 <<< 40 ||| b5 <<< 32 |||
        b6 <<< 24 ||| b7 <<< 16 ||| b8 <<< 8 ||| b9)
      (b10 <<< 24 ||| b11 <<< 16 ||| b12 <<< 8 ||| b13) false = _
  rw [asm8 b2 b3 b4 b5 b6 b7 b8 b9 h3 h4 h5 h6 h7 h8 h9,
    asm4 b10 b11 b12 b13 h11 h12 h13]

/-- The parser on a WRITE(16) CDB. -/
theorem parse_write16 (b1 b2 b3 b4 b5 b6 b7 b8 b9 b10 b11 b12 b13 b14 b15 : Nat)
    (h3 : b3 < 256) (h4 : b4 < 256) (h5 : b5 < 256) (h6 : b6 < 256)
    (h7 : b7 < 256) (h8 : b8 < 256) (h9 : b9 < 256)
    (h11 : b11 < 256) (h12 : b12 < 256) (h13 : b13 < 256) :
    nvme_parse_rw_cdb [SCSIOP_WRITE_16, b1, b2, b3, b4, b5, b6, b7, b8, b9,
        b10, b11, b12, b13, b14, b15] =
      .ok (b2 * 72057594037927936 + b3 * 281474976710656 +
             b4 * 1099511627776 + b5 * 4294967296 + b6 * 16777216 +
             b7 * 65536 + b8 * 256 + b9)
          (b10 * 16777216 + b11 * 65536 + b12 * 256 + b13) true := by
  show RwParse.ok
      (b2 <<< 56 ||| b3 <<< 48 ||| b4 <<< 40 ||| b5 <<< 32 |||
        b6 <<< 24 ||| b7 <<< 16 ||| b8 <<< 8 ||| b9)
      (b10 <<< 24 ||| b11 <<< 16 ||| b12 <<< 8 ||| b13) true = _
  rw [asm8 b2 b3 b4 b5 b6 b7 b8 b9 h3 h4 h5 h6 h7 h8 h9,
    asm4 b10 b11 b12 b13 h11 h12 h13]

/-- Any CDB opcode other than the six supported ones parses to the
unsupported-opcode error. -/
theorem parse_unsupported (cdb : List Nat)
    (h1 : cdb.getD 0 0 ≠ SCSIOP_READ_6) (h2 : cdb.getD 0 0 ≠ SCSIOP_WRITE_6)
    (h3 : cdb.getD 0 0 ≠ SCSIOP_READ_10) (h4 : cdb.getD 0 0 ≠ SCSIOP_WRITE_10)
    (h5 : cdb.getD 0 0 ≠ SCSIOP_READ_16) (h6 : cdb.getD 0 0 ≠ SCSIOP_WRITE_16) :
    nvme_parse_rw_cdb cdb = .unsupported := by
  unfold nvme_parse_rw_cdb
  rw [if_neg (not_or.mpr ⟨h1, h2⟩), if_neg (not_or.mpr ⟨h3, h4⟩),
    if_neg (not_or.mpr ⟨h5, h6⟩)]

/-- `nvme_rw_adjust_emit` at `cmd_index = 0`: no adjustment, straight
encoding of LBA into CDW10/CDW11 and `blocks-1` into CDW12. -/
theorem adjust_emit_zero (soft : SoftCfg) (lba0 nb0 : Nat) (w : Bool)
    (hl : lba0 < 2 ^ 64) (hn : nb0 < 2 ^ 32)
    (hm : nb0 ≤ soft.max_transfer_blocks) :
    nvme_rw_adjust_emit soft lba0 nb0 w 0 =
      { cdw0 := if w then NVME_CMD_WRITE else NVME_CMD_READ, nsid := 1,
        cdw10 := lba0 % 2 ^ 32, cdw11 := lba0 / 2 ^ 32,
        cdw12 := if nb0 > 0 then nb0 - 1 else 0 } := by
  unfold nvme_rw_adjust_emit UINT32_MOD UINT64_MOD
  have hc10 : lba0 &&& 4294967295 = lba0 % 2 ^ 32 := by
    have := Nat.and_pow_two_sub_one_eq_mod lba0 32
    norm_num at this ⊢
    exact this
  have hc11 : lba0 >>> 32 = lba0 / 2 ^ 32 := Nat.shiftRight_eq_div_pow lba0 32
  simp only [Nat.zero_mul, Nat.zero_mod, Nat.add_zero, Nat.sub_zero,
    Nat.add_mod_right, Nat.mod_eq_of_lt hl, Nat.mod_eq_of_lt hn,
    if_neg (show ¬ nb0 > soft.max_transfer_blocks by omega), hc10, hc11]

/-- `nvme_rw_adjust_emit` at `cmd_index = 0` with an LBA that fits 32 bits. -/
theorem adjust_emit_zero_small (soft : SoftCfg) (lba0 nb0 : Nat) (w : Bool)
    (hl : lba0 < 2 ^ 32) (hn1 : 1 ≤ nb0) (hn : nb0 < 2 ^ 32)
    (hm : nb0 ≤ soft.max_transfer_blocks) :
    nvme_rw_adjust_emit soft lba0 nb0 w 0 =
      { cdw0 := if w then NVME_CMD_WRITE else NVME_CMD_READ, nsid := 1,
        cdw10 := lba0, cdw11 := 0, cdw12 := nb0 - 1 } := by
  rw [adjust_emit_zero soft lba0 nb0 w
    (lt_trans hl (by norm_num)) hn hm]
  simp only [Nat.mod_eq_of_lt hl, Nat.div_eq_of_lt hl,
    if_pos (show nb0 > 0 by omega)]

end NvmeDrv

namespace NvmeDrv

/-- C4: for each of the six supported CDB opcodes, `nvme_io_build_rw_command`
(at `cmd_index = 0`, transfer within `max_transfer_blocks`) extracts LBA and
transfer length per that CDB format and emits NVMe opcode 0x02 (read) /
0x01 (write), NSID 1, LBA split low/high into CDW10/CDW11, and `blocks-1` in
CDW12; a READ(6)/WRITE(6) length field of 0 means 256 blocks; any other CDB
opcode yields the unsupported-opcode error (C `return 0`, here `none`). -/
theorem build_rw_cdb_formats (soft : SoftCfg) :
    (∀ b1 b2 b3 b4, b1 < 256 → b2 < 256 → b3 < 256 → b4 < 256 →
      (if b4 = 0 then 256 else b4) ≤ soft.max_transfer_blocks →
      nvme_io_build_rw_command soft [SCSIOP_READ_6, b1, b2, b3, b4, 0] 0 =
        some { cdw0 := NVME_CMD_READ, nsid := 1,
               cdw10 := b1 % 32 * 65536 + b2 * 256 + b3, cdw11 := 0,
               cdw12 := (if b4 = 0 then 256 else b4) - 1 }) ∧
    (∀ b1 b2 b3 b4, b1 < 256 → b2 < 256 → b3 < 256 → b4 < 256 →
      (if b4 = 0 then 256 else b4) ≤ soft.max_transfer_blocks →
      nvme_io_build_rw_command soft [SCSIOP_WRITE_6, b1, b2, b3, b4, 0] 0 =
        some { cdw0 := NVME_CMD_WRITE, nsid := 1,
               cdw10 := b1 % 32 * 65536 + b2 * 256 + b3, cdw11 := 0,
               cdw12 := (if b4 = 0 then 256 else b4) - 1 }) ∧
    (∀ b1 b2 b3 b4 b5 b6 b7 b8 b9,
      b2 < 256 → b3 < 256 → b4 < 256 → b5 < 256 → b7 < 256 → b8 < 256 →
      1 ≤ b7 * 256 + b8 → b7 * 256 + b8 ≤ soft.max_transfer_blocks →
      nvme_io_build_rw_command soft
          [SCSIOP_READ_10, b1, b2, b3, b4, b5, b6, b7, b8, b9] 0 =
        some { cdw0 := NVME_CMD_READ, nsid := 1,
               cdw10 := b2 * 16777216 + b3 * 65536 + b4 * 256 + b5,
               cdw11 := 0, cdw12 := b7 * 256 + b8 - 1 }) ∧
    (∀ b1 b2 b3 b4 b5 b6 b7 b8 b9,
      b2 < 256 → b3 < 256 → b4 < 256 → b5 < 256 → b7 < 256 → b8 < 256 →
      1 ≤ b7 * 256 + b8 → b7 * 256 + b8 ≤ soft.max_transfer_blocks →
      nvme_io_build_rw_command soft
          [SCSIOP_WRITE_10, b1, b2, b3, b4, b5, b6, b7, b8, b9] 0 =
        some { cdw0 := NVME_CMD_WRITE, nsid := 1,
               cdw10 := b2 * 16777216 + b3 * 65536 + b4 * 256 + b5,
               cdw11 := 0, cdw12 := b7 * 256 + b8 - 1 }) ∧
    (∀ b1 b2 b3 b4 b5 b6 b7 b8 b9 b10 b11 b12 b13 b14 b15,
      b2 < 256 → b3 < 256 → b4 < 256 → b5 < 256 → b6 < 256 → b7 < 256 →
      b8 < 256 → b9 < 256 → b10 < 256 → b11 < 256 → b12 < 256 → b13 < 256 →
      1 ≤ b10 * 16777216 + b11 * 65536 + b12 * 256 + b13 →
      b10 * 16777216 + b11 * 65536 + b12 * 256 + b13 ≤
        soft.max_transfer_blocks →
      nvme_io_build_rw_command soft [SCSIOP_READ_16, b1, b2, b3, b4, b5, b6,
          b7, b8, b9, b10, b11, b12, b13, b14, b15] 0 =
        some { cdw0 := NVME_CMD_READ, nsid := 1,
               cdw10 := (b2 * 72057594037927936 + b3 * 281474976710656 +
                 b4 * 1099511627776 + b5 * 4294967296 + b6 * 16777216 +
                 b7 * 65536 + b8 * 256 + b9) % 2 ^ 32,
               cdw11 := (b2 * 72057594037927936 + b3 * 281474976710656 +
                 b4 * 1099511627776 + b5 * 4294967296 + b6 * 16777216 +
                 b7 * 65536 + b8 * 256 + b9) / 2 ^ 32,
               cdw12 := b10 * 16777216 + b11 * 65536 + b12 * 256 + b13 - 1 }) ∧
    (∀ b1 b2 b3 b4 b5 b6 b7 b8 b9 b10 b11 b12 b13 b14 b15,
      b2 < 256 → b3 < 256 → b4 < 256 → b5 < 256 → b6 < 256 → b7 < 256 →
      b8 < 256 → b9 < 256 → b10 < 256 → b11 < 256 → b12 < 256 → b13 < 256 →
      1 ≤ b10 * 16777216 + b11 * 65536 + b12 * 256 + b13 →
      b10 * 16777216 + b11 * 65536 + b12 * 256 + b13 ≤
        soft.max_transfer_blocks →
      nvme_io_build_rw_command soft [SCSIOP_WRITE_16, b1, b2, b3, b4, b5, b6,
          b7, b8, b9, b10, b11, b12, b13, b14, b15] 0 =
        some { cdw0 := NVME_CMD_WRITE, nsid := 1,
               cdw10 := (b2 * 72057594037927936 + b3 * 281474976710656 +
                 b4 * 1099511627776 + b5 * 4294967296 + b6 * 16777216 +
                 b7 * 65536 + b8 * 256 + b9) % 2 ^ 32,
               cdw11 := (b2 * 72057594037927936 + b3 * 281474976710656 +
                 b4 * 1099511627776 + b5 * 4294967296 + b6 * 16777216 +
                 b7 * 65536 + b8 * 256 + b9) / 2 ^ 32,
               cdw12 := b10 * 16777216 + b11 * 65536 + b12 * 256 + b13 - 1 }) ∧
    (∀ cdb : List Nat,
      cdb.getD 0 0 ≠ SCSIOP_READ_6 → cdb.getD 0 0 ≠ SCSIOP_WRITE_6 →
      cdb.getD 0 0 ≠ SCSIOP_READ_10 → cdb.getD 0 0 ≠ SCSIOP_WRITE_10 →
      cdb.getD 0 0 ≠ SCSIOP_READ_16 → cdb.getD 0 0 ≠ SCSIOP_WRITE_16 →
      ∀ i, nvme_io_build_rw_command soft cdb i = none) := by
  refine ⟨?_, ?_, ?_, ?_, ?_, ?_, ?_⟩
  · intro b1 b2 b3 b4 hb1 hb2 hb3 hb4 hm
    unfold nvme_io_build_rw_command
    rw [parse_read6 b1 b2 b3 b4 hb2 hb3]
    dsimp only
    rw [adjust_emit_zero_small soft _ _ false (by norm_num; omega)
      (by split <;> omega) (by split <;> norm_num; omega) hm]
    norm_num
  · intro b1 b2 b3 b4 hb1 hb2 hb3 hb4 hm
    unfold nvme_io_build_rw_command
    rw [parse_write6 b1 b2 b3 b4 hb2 hb3]
    dsimp only
    rw [adjust_emit_zero_small soft _ _ true (by norm_num; omega)
      (by split <;> omega) (by split <;> norm_num; omega) hm]
    norm_num
  · intro b1 b2 b3 b4 b5 b6 b7 b8 b9 hb2 hb3 hb4 hb5 hb7 hb8 h1 hm
    unfold nvme_io_build_rw_command
    rw [parse_read10 b1 b2 b3 b4 b5 b6 b7 b8 b9 hb3 hb4 hb5 hb8]
    dsimp only
    rw [adjust_emit_zero_small soft _ _ false (by norm_num; omega) h1
      (by norm_num; omega) hm]
    norm_num
  · intro b1 b2 b3 b4 b5 b6 b7 b8 b9 hb2 hb3 hb4 hb5 hb7 hb8 h1 hm
    unfold nvme_io_build_rw_command
    rw [parse_write10 b1 b2 b3 b4 b5 b6 b7 b8 b9 hb3 hb4 hb5 hb8]
    dsimp only
    rw [adjust_emit_zero_small soft _ _ true (by norm_num; omega) h1
      (by norm_num; omega) hm]
    norm_num
  · intro b1 b2 b3 b4 b5 b6 b7 b8 b9 b10 b11 b12 b13 b14 b15
      hb2 hb3 hb4 hb5 hb6 hb7 hb8 hb9 hb10 hb11 hb12 hb13 h1 hm
    unfold nvme_io_build_rw_command
    rw [parse_read16 b1 b2 b3 b4 b5 b6 b7 b8 b9 b10 b11 b12 b13 b14 b15
      hb3 hb4 hb5 hb6 hb7 hb8 hb9 hb11 hb12 hb13]
    dsimp only
    rw [adjust_emit_zero soft _ _ false (by norm_num; omega)
      (by norm_num; omega) hm]
    simp only [if_pos (show b10 * 16777216 + b11 * 65536 + b12 * 256 + b13 > 0
      by omega)]
    norm_num
  · intro b1 b2 b3 b4 b5 b6 b7 b8 b9 b10 b11 b12 b13 b14 b15
      hb2 hb3 hb4 hb5 hb6 hb7 hb8 hb9 hb10 hb11 hb12 hb13 h1 hm
    unfold nvme_io_build_rw_command
    rw [parse_write16 b1 b2 b3 b4 b5 b6 b7 b8 b9 b10 b11 b12 b13 b14 b15
      hb3 hb4 hb5 hb6 hb7 hb8 hb9 hb11 hb12 hb13]
    dsimp only
    rw [adjust_emit_zero soft _ _ true (by norm_num; omega)
      (by norm_num; omega) hm]
    simp only [if_pos (show b10 * 16777216 + b11 * 65536 + b12 * 256 + b13 > 0
      by omega)]
    norm_num
  · intro cdb h1 h2 h3 h4 h5 h6 i
    unfold nvme_io_build_rw_command
    rw [parse_unsupported cdb h1 h2 h3 h4 h5 h6]

/-- Closed witness for C4: a READ(10) of 8 blocks at LBA 0x01020304, a
WRITE(6) with zero length field (256 blocks), and an unsupported opcode
(0xAB). -/
theorem build_rw_cdb_formats_witness :
    (nvme_io_build_rw_command ⟨0xFFFF, 512, 4096, 512, 0⟩
        [0x28, 0, 1, 2, 3, 4, 0, 0, 8, 0] 0 =
      some { cdw0 := NVME_CMD_READ, nsid := 1,
             cdw10 := 1 * 16777216 + 2 * 65536 + 3 * 256 + 4, cdw11 := 0,
             cdw12 := 0 * 256 + 8 - 1 }) ∧
    (nvme_io_build_rw_command ⟨0xFFFF, 512, 4096, 512, 0⟩
        [0x0A, 1, 2, 3, 0, 0] 0 =
      some { cdw0 := NVME_CMD_WRITE, nsid := 1,
             cdw10 := 1 % 32 * 65536 + 2 * 256 + 3, cdw11 := 0,
             cdw12 := (if (0 : Nat) = 0 then 256 else 0) - 1 }) ∧
    (nvme_io_build_rw_command ⟨0xFFFF, 512, 4096, 512, 0⟩
        [0xAB, 0, 0, 0, 0, 0] 3 = none) := by
  refine ⟨?_, ?_, ?_⟩
  · exact (build_rw_cdb_formats _).2.2.1 0 1 2 3 4 0 0 8 0 (by decide)
      (by decide) (by decide) (by decide) (by decide) (by decide) (by decide)
      (by decide)
  · exact (build_rw_cdb_formats _).2.1 1 2 3 0 (by decide) (by decide)
      (by decide) (by decide) (by decide)
  · exact (build_rw_cdb_formats _).2.2.2.2.2.2 [0xAB, 0, 0, 0, 0, 0]
      (by decide) (by decide) (by decide) (by decide) (by decide) (by decide) 3

end NvmeDrv

namespace NvmeDrv

/-- `nvme_rw_adjust_emit` at `cmd_index = 0` with a zero block count: the
guard `(num_blocks > 0) ? (num_blocks - 1) : 0` yields CDW12 = 0. -/
theorem adjust_emit_zero_nb0 (soft : SoftCfg) (lba0 : Nat) (w : Bool)
    (hl : lba0 < 2 ^ 64) :
    nvme_rw_adjust_emit soft lba0 0 w 0 =
      { cdw0 := if w then NVME_CMD_WRITE else NVME_CMD_READ, nsid := 1,
        cdw10 := lba0 % 2 ^ 32, cdw11 := lba0 / 2 ^ 32, cdw12 := 0 } := by
  rw [adjust_emit_zero soft lba0 0 w hl (by norm_num) (Nat.zero_le _)]
  norm_num

/-- C10: a READ(10)/WRITE(10)/READ(16)/WRITE(16) CDB with transfer-length
field 0 (at `cmd_index = 0`) produces CDW12 = 0: the 0-based block-count
computation `blocks - 1` is guarded and does not wrap to 0xFFFF. -/
theorem cdw12_zero_transfer_guard (soft : SoftCfg) :
    (∀ b1 b2 b3 b4 b5, b2 < 256 → b3 < 256 → b4 < 256 → b5 < 256 →
      nvme_io_build_rw_command soft
          [SCSIOP_READ_10, b1, b2, b3, b4, b5, 0, 0, 0, 0] 0 =
        some { cdw0 := NVME_CMD_READ, nsid := 1,
               cdw10 := (b2 * 16777216 + b3 * 65536 + b4 * 256 + b5) % 2 ^ 32,
               cdw11 := (b2 * 16777216 + b3 * 65536 + b4 * 256 + b5) / 2 ^ 32,
               cdw12 := 0 }) ∧
    (∀ b1 b2 b3 b4 b5, b2 < 256 → b3 < 256 → b4 < 256 → b5 < 256 →
      nvme_io_build_rw_command soft
          [SCSIOP_WRITE_10, b1, b2, b3, b4, b5, 0, 0, 0, 0] 0 =
        some { cdw0 := NVME_CMD_WRITE, nsid := 1,
               cdw10 := (b2 * 16777216 + b3 * 65536 + b4 * 256 + b5) % 2 ^ 32,
               cdw11 := (b2 * 16777216 + b3 * 65536 + b4 * 256 + b5) / 2 ^ 32,
               cdw12 := 0 }) ∧
    (∀ b1 b2 b3 b4 b5 b6 b7 b8 b9,
      b2 < 256 → b3 < 256 → b4 < 256 → b5 < 256 → b6 < 256 → b7 < 256 →
      b8 < 256 → b9 < 256 →
      nvme_io_build_rw_command soft [SCSIOP_READ_16, b1, b2, b3, b4, b5, b6,
          b7, b8, b9, 0, 0, 0, 0, 0, 0] 0 =
        some { cdw0 := NVME_CMD_READ, nsid := 1,
               cdw10 := (b2 * 72057594037927936 + b3 * 281474976710656 +
                 b4 * 1099511627776 + b5 * 4294967296 + b6 * 16777216 +
                 b7 * 65536 + b8 * 256 + b9) % 2 ^ 32,
               cdw11 := (b2 * 72057594037927936 + b3 * 281474976710656 +
                 b4 * 1099511627776 + b5 * 4294967296 + b6 * 16777216 +
                 b7 * 65536 + b8 * 256 + b9) / 2 ^ 32,
               cdw12 := 0 }) ∧
    (∀ b1 b2 b3 b4 b5 b6 b7 b8 b9,
      b2 < 256 → b3 < 256 → b4 < 256 → b5 < 256 → b6 < 256 → b7 < 256 →
      b8 < 256 → b9 < 256 →
      nvme_io_build_rw_command soft [SCSIOP_WRITE_16, b1, b2, b3, b4, b5, b6,
          b7, b8, b9, 0, 0, 0, 0, 0, 0] 0 =
        some { cdw0 := NVME_CMD_WRITE, nsid := 1,
               cdw10 := (b2 * 72057594037927936 + b3 * 281474976710656 +
                 b4 * 1099511627776 + b5 * 4294967296 + b6 * 16777216 +
                 b7 * 65536 + b8 * 256 + b9) % 2 ^ 32,
               cdw11 := (b2 * 72057594037927936 + b3 * 281474976710656 +
                 b4 * 1099511627776 + b5 * 4294967296 + b6 * 16777216 +
                 b7 * 65536 + b8 * 256 + b9) / 2 ^ 32,
               cdw12 := 0 }) := by
  refine ⟨?_, ?_, ?_, ?_⟩
  · intro b1 b2 b3 b4 b5 hb2 hb3 hb4 hb5
    unfold nvme_io_build_rw_command
    rw [parse_read10 b1 b2 b3 b4 b5 0 0 0 0 hb3 hb4 hb5 (by norm_num)]
    dsimp only
    norm_num
    rw [adjust_emit_zero_nb0 soft _ false (by norm_num; omega)]
    norm_num
  · intro b1 b2 b3 b4 b5 hb2 hb3 hb4 hb5
    unfold nvme_io_build_rw_command
    rw [parse_write10 b1 b2 b3 b4 b5 0 0 0 0 hb3 hb4 hb5 (by norm_num)]
    dsimp only
    norm_num
    rw [adjust_emit_zero_nb0 soft _ true (by norm_num; omega)]
    norm_num
  · intro b1 b2 b3 b4 b5 b6 b7 b8 b9 hb2 hb3 hb4 hb5 hb6 hb7 hb8 hb9
    unfold nvme_io_build_rw_command
    rw [parse_read16 b1 b2 b3 b4 b5 b6 b7 b8 b9 0 0 0 0 0 0
      hb3 hb4 hb5 hb6 hb7 hb8 hb9 (by norm_num) (by norm_num) (by norm_num)]
    dsimp only
    norm_num
    rw [adjust_emit_zero_nb0 soft _ false (by norm_num; omega)]
    norm_num
  · intro b1 b2 b3 b4 b5 b6 b7 b8 b9 hb2 hb3 hb4 hb5 hb6 hb7 hb8 hb9
    unfold nvme_io_build_rw_command
    rw [parse_write16 b1 b2 b3 b4 b5 b6 b7 b8 b9 0 0 0 0 0 0
      hb3 hb4 hb5 hb6 hb7 hb8 hb9 (by norm_num) (by norm_num) (by norm_num)]
    dsimp only
    norm_num
    rw [adjust_emit_zero_nb0 soft _ true (by norm_num; omega)]
    norm_num

/-- Closed witness for C10: READ(10) and WRITE(16) with zero transfer field. -/
theorem cdw12_zero_transfer_guard_witness :
    (nvme_io_build_rw_command ⟨0xFFFF, 512, 4096, 512, 0⟩
        [0x28, 0, 0, 0, 0, 7, 0, 0, 0, 0] 0 =
      some { cdw0 := NVME_CMD_READ, nsid := 1,
             cdw10 := (0 * 16777216 + 0 * 65536 + 0 * 256 + 7) % 2 ^ 32,
             cdw11 := (0 * 16777216 + 0 * 65536 + 0 * 256 + 7) / 2 ^ 32,
             cdw12 := 0 }) ∧
    (nvme_io_build_rw_command ⟨0xFFFF, 512, 4096, 512, 0⟩
        [0x8A, 0, 1, 0, 0, 0, 0, 0, 0, 5, 0, 0, 0, 0, 0, 0] 0 =
      some { cdw0 := NVME_CMD_WRITE, nsid := 1,
             cdw10 := (1 * 72057594037927936 + 0 * 281474976710656 +
               0 * 1099511627776 + 0 * 4294967296 + 0 * 16777216 +
               0 * 65536 + 0 * 256 + 5) % 2 ^ 32,
             cdw11 := (1 * 72057594037927936 + 0 * 281474976710656 +
               0 * 1099511627776 + 0 * 4294967296 + 0 * 16777216 +
               0 * 65536 + 0 * 256 + 5) / 2 ^ 32,
             cdw12 := 0 }) := by
  constructor
  · exact (cdw12_zero_transfer_guard _).1 0 0 0 0 7 (by decide) (by decide)
      (by decide) (by decide)
  · exact (cdw12_zero_transfer_guard _).2.2.2 0 1 0 0 0 0 0 0 5 (by decide)
      (by decide) (by decide) (by decide) (by decide) (by decide) (by decide)
      (by decide)

end NvmeDrv

namespace NvmeDrv

/-- Input constructor for the splitting law: a READ(16) CDB carrying a 64-bit
LBA `L` and 32-bit transfer length `T` in big-endian bytes. -/
def read16Cdb (L T : Nat) : List Nat :=
  [SCSIOP_READ_16, 0,
   L / 2 ^ 56 % 256, L / 2 ^ 48 % 256, L / 2 ^ 40 % 256, L / 2 ^ 32 % 256,
   L / 2 ^ 24 % 256, L / 2 ^ 16 % 256, L / 2 ^ 8 % 256, L % 256,
   T / 2 ^ 24 % 256, T / 2 ^ 16 % 256, T / 2 ^ 8 % 256, T % 256, 0, 0]

theorem byte_recompose64 (L : Nat) (h : L < 2 ^ 64) :
    L / 2 ^ 56 % 256 * 72057594037927936 +
      L / 2 ^ 48 % 256 * 281474976710656 +
      L / 2 ^ 40 % 256 * 1099511627776 + L / 2 ^ 32 % 256 * 4294967296 +
      L / 2 ^ 24 % 256 * 16777216 + L / 2 ^ 16 % 256 * 65536 +
      L / 2 ^ 8 % 256 * 256 + L % 256 = L := by
  norm_num at h ⊢
  omega

theorem byte_recompose32 (T : Nat) (h : T < 2 ^ 32) :
    T / 2 ^ 24 % 256 * 16777216 + T / 2 ^ 16 % 256 * 65536 +
      T / 2 ^ 8 % 256 * 256 + T % 256 = T := by
  norm_num at h ⊢
  omega

/-- The general form of `nvme_rw_adjust_emit` when the 32-bit product
`cmd_index * max_transfer_blocks` does not wrap and does not exceed the
total block count. -/
theorem adjust_emit_general (soft : SoftCfg) (lba0 nb0 : Nat) (w : Bool)
    (i : Nat) (hadj : i * soft.max_transfer_blocks < 2 ^ 32)
    (hle : i * soft.max_transfer_blocks ≤ nb0) (hn : nb0 < 2 ^ 32)
    (hl : lba0 + i * soft.max_transfer_blocks < 2 ^ 64) :
    nvme_rw_adjust_emit soft lba0 nb0 w i =
      { cdw0 := if w then NVME_CMD_WRITE else NVME_CMD_READ, nsid := 1,
        cdw10 := (lba0 + i * soft.max_transfer_blocks) % 2 ^ 32,
        cdw11 := (lba0 + i * soft.max_transfer_blocks) / 2 ^ 32,
        cdw12 :=
          if min soft.max_transfer_blocks
              (nb0 - i * soft.max_transfer_blocks) > 0 then
            min soft.max_transfer_blocks
              (nb0 - i * soft.max_transfer_blocks) - 1
          else 0 } := by
  unfold nvme_rw_adjust_emit UINT32_MOD UINT64_MOD
  have e1 : i * soft.max_transfer_blocks % 2 ^ 32 =
      i * soft.max_transfer_blocks := Nat.mod_eq_of_lt hadj
  have e2 : (lba0 + i * soft.max_transfer_blocks) % 2 ^ 64 =
      lba0 + i * soft.max_transfer_blocks := Nat.mod_eq_of_lt hl
  have e3 : (nb0 + (2 ^ 32 - i * soft.max_transfer_blocks)) % 2 ^ 32 =
      nb0 - i * soft.max_transfer_blocks := by
    have h32 : (0 : Nat) < 2 ^ 32 := by norm_num
    rw [show nb0 + (2 ^ 32 - i * soft.max_transfer_blocks) =
      nb0 - i * soft.max_transfer_blocks + 2 ^ 32 by omega, Nat.add_mod_right]
    exact Nat.mod_eq_of_lt (by omega)
  have e4 : (if nb0 - i * soft.max_transfer_blocks >
        soft.max_transfer_blocks then soft.max_transfer_blocks
      else nb0 - i * soft.max_transfer_blocks) =
      min soft.max_transfer_blocks (nb0 - i * soft.max_transfer_blocks) := by
    rcases le_or_lt (nb0 - i * soft.max_transfer_blocks)
        soft.max_transfer_blocks with h | h
    · rw [if_neg (by omega), Nat.min_eq_right h]
    · rw [if_pos h, Nat.min_eq_left (by omega)]
  have e5 : (lba0 + i * soft.max_transfer_blocks) &&& 4294967295 =
      (lba0 + i * soft.max_transfer_blocks) % 2 ^ 32 := by
    have := Nat.and_pow_two_sub_one_eq_mod
      (lba0 + i * soft.max_transfer_blocks) 32
    norm_num at this ⊢
    exact this
  have e6 : (lba0 + i * soft.max_transfer_blocks) >>> 32 =
      (lba0 + i * soft.max_transfer_blocks) / 2 ^ 32 :=
    Nat.shiftRight_eq_div_pow _ 32
  simp only [e1, e2, e3, e4, e5, e6]

/-- A sub-command index below `ceil(T/M)` covers at least one block:
`i * M < T`. -/
theorem index_lt_ceil_mul_lt (M T i : Nat) (hM : 0 < M) (_hT : 1 ≤ T)
    (hi : i < (T + M - 1) / M) : i * M + 1 ≤ T := by
  have h1 : i + 1 ≤ (T + M - 1) / M := hi
  have h2 : (i + 1) * M ≤ T + M - 1 := (Nat.le_div_iff_mul_le hM).mp h1
  have h3 : (i + 1) * M = i * M + M := by ring
  omega

/-- C3: for a transfer of `T` blocks at LBA `L` with limit
`M = max_transfer_blocks` and any sub-command index `i < ceil(T/M)`, building
sub-command `i` yields starting LBA `L + i*M` in CDW10/CDW11 and block count
`min(M, T - i*M)` encoded 0-based in CDW12, and the sub-command block ranges
`[L + i*M, L + i*M + count)` together cover exactly `[L, L+T)`. -/
theorem mdts_split_covers (soft : SoftCfg) (L T i : Nat)
    (hM1 : 1 ≤ soft.max_transfer_blocks) (hT1 : 1 ≤ T) (hTw : T < 2 ^ 32)
    (hi : i < (T + soft.max_transfer_blocks - 1) / soft.max_transfer_blocks)
    (hL : L + T ≤ 2 ^ 64) :
    ∃ c, nvme_io_build_rw_command soft (read16Cdb L T) i = some c ∧
      c.cdw10 + 2 ^ 32 * c.cdw11 = L + i * soft.max_transfer_blocks ∧
      c.cdw12 =
        min soft.max_transfer_blocks (T - i * soft.max_transfer_blocks) - 1 ∧
      (∀ x, (L ≤ x ∧ x < L + T) ↔
        ∃ j, j < (T + soft.max_transfer_blocks - 1) /
            soft.max_transfer_blocks ∧
          L + j * soft.max_transfer_blocks ≤ x ∧
          x < L + j * soft.max_transfer_blocks +
            min soft.max_transfer_blocks
              (T - j * soft.max_transfer_blocks)) := by
  have hM0 : 0 < soft.max_transfer_blocks := hM1
  have hLw : L < 2 ^ 64 := by omega
  have hiM : i * soft.max_transfer_blocks + 1 ≤ T :=
    index_lt_ceil_mul_lt _ _ _ hM0 hT1 hi
  unfold nvme_io_build_rw_command read16Cdb
  rw [parse_read16 _ _ _ _ _ _ _ _ _ _ _ _ _ _ _
    (Nat.mod_lt _ (by norm_num)) (Nat.mod_lt _ (by norm_num))
    (Nat.mod_lt _ (by norm_num)) (Nat.mod_lt _ (by norm_num))
    (Nat.mod_lt _ (by norm_num)) (Nat.mod_lt _ (by norm_num))
    (Nat.mod_lt _ (by norm_num)) (Nat.mod_lt _ (by norm_num))
    (Nat.mod_lt _ (by norm_num)) (Nat.mod_lt _ (by norm_num))]
  rw [byte_recompose64 L hLw, byte_recompose32 T hTw]
  dsimp only
  rw [adjust_emit_general soft L T false i (by omega) (by omega) hTw
    (by omega)]
  refine ⟨_, rfl, ?_, ?_, ?_⟩
  · exact Nat.mod_add_div (L + i * soft.max_transfer_blocks) (2 ^ 32)
  · have hmin : 0 < min soft.max_transfer_blocks
        (T - i * soft.max_transfer_blocks) :=
      lt_min_iff.mpr ⟨hM0, by omega⟩
    dsimp only
    rw [if_pos hmin]
  · intro x
    constructor
    · rintro ⟨hlx, hxt⟩
      refine ⟨(x - L) / soft.max_transfer_blocks, ?_, ?_, ?_⟩
      · have hq : (x - L) / soft.max_transfer_blocks ≤
            (T - 1) / soft.max_transfer_blocks :=
          Nat.div_le_div_right (by omega)
        have hceil : (T + soft.max_transfer_blocks - 1) /
            soft.max_transfer_blocks =
            (T - 1) / soft.max_transfer_blocks + 1 := by
          rw [show T + soft.max_transfer_blocks - 1 =
            T - 1 + soft.max_transfer_blocks by omega,
            Nat.add_div_right _ hM0]
        omega
      · have hd := Nat.div_add_mod (x - L) soft.max_transfer_blocks
        have h2 : (x - L) / soft.max_transfer_blocks *
            soft.max_transfer_blocks =
            soft.max_transfer_blocks * ((x - L) / soft.max_transfer_blocks) :=
          Nat.mul_comm _ _
        omega
      · have hd := Nat.div_add_mod (x - L) soft.max_transfer_blocks
        have hr : (x - L) % soft.max_transfer_blocks <
            soft.max_transfer_blocks := Nat.mod_lt _ hM0
        have h2 : (x - L) / soft.max_transfer_blocks *
            soft.max_transfer_blocks =
            soft.max_transfer_blocks * ((x - L) / soft.max_transfer_blocks) :=
          Nat.mul_comm _ _
        omega
    · rintro ⟨j, hj, h1, h2⟩
      have hj1 : (j + 1) * soft.max_transfer_blocks ≤
          T + soft.max_transfer_blocks - 1 :=
        (Nat.le_div_iff_mul_le hM0).mp hj
      have hj2 : (j + 1) * soft.max_transfer_blocks =
          j * soft.max_transfer_blocks + soft.max_transfer_blocks := by ring
      omega

/-- Closed witness for C3: `T = 2048`, `M = 1024`, sub-command 1 of 2. -/
theorem mdts_split_covers_witness :
    ∃ c, nvme_io_build_rw_command ⟨1024, 512, 4096, 512, 0⟩
        (read16Cdb 100 2048) 1 = some c ∧
      c.cdw10 + 2 ^ 32 * c.cdw11 = 100 + 1 * 1024 ∧
      c.cdw12 = min 1024 (2048 - 1 * 1024) - 1 ∧
      (∀ x, (100 ≤ x ∧ x < 100 + 2048) ↔
        ∃ j, j < (2048 + 1024 - 1) / 1024 ∧
          100 + j * 1024 ≤ x ∧
          x < 100 + j * 1024 + min 1024 (2048 - j * 1024)) :=
  mdts_split_covers ⟨1024, 512, 4096, 512, 0⟩ 100 2048 1 (by norm_num)
    (by norm_num) (by norm_num) (by norm_num) (by norm_num)

end NvmeDrv

namespace NvmeDrv

/-! ### Driver state: CID table, PRP pool, upstream requests

The C driver keeps the I/O CID occupancy bitmap as 8 × 32-bit words
(`io_cid_bitmap[8]`), addressed by `word_idx = cid >> 5` and
`mask = 1 << (cid & 0x1F)`.  Here the same 256 bits are kept in a single
natural number whose bit `cid` is word `cid >> 5`, bit `cid & 0x1F` of the C
array; test/set/clear of one CID translate accordingly.  The PRP pool bitmap
is a single 64-bit word in C as well (1 = free).
-/

/-- The upstream SCSI request fields the engine reads and writes
(`scsi_request_t`).  `sr_ha` is the opaque word carrying the split refcount
(`(void *)(__psint_t)n`, so 0 = NULL); `sr_sense = none` models a NULL sense
pointer; `sr_notify` is whether the completion callback is non-NULL. -/
structure ScsiRequest where
  sr_ha : Nat := 0
  sr_status : Nat := 0
  sr_scsi_status : Nat := 0
  sr_resid : Nat := 0
  sr_sensegotten : Nat := 0
  sr_sense : Option (List Nat) := none
  sr_senselen : Nat := 0
  sr_buflen : Nat := 0
  sr_notify : Bool := false
  deriving Repr, DecidableEq

/-- Placeholder request used for out-of-range `getD` reads (never reached
under the well-formedness hypotheses). -/
def dummyReq : ScsiRequest := {}

/-- One CID slot (`nvme_cmd_info_t` in `soft->io_requests[cid]`):
the request pointer (an index into the request table) and the owned PRP pool
page indices (`-1` = NONE). -/
structure CidSlot where
  req : Option Nat := none
  prpidx : List Int := List.replicate NVME_CMD_MAX_PRPS (-1)
  deriving Repr, DecidableEq

/-- A slot with no request and no PRP pages. -/
def emptySlot : CidSlot := {}

/-- Driver state touched by the CID/PRP/completion paths. -/
structure DrvState where
  io_cid_bitmap : Nat
  io_requests : List CidSlot
  prp_pool_bitmap : Nat
  reqs : List ScsiRequest
  deriving Repr, DecidableEq

/-- Test bit `cid` of the CID bitmap (C `word & mask` with
`word = io_cid_bitmap[cid >> 5]`, `mask = 1 << (cid & 0x1F)`). -/
def cidTest (bm : Nat) (cid : Nat) : Bool := bm.testBit cid

/-- Set bit `cid` (C `io_cid_bitmap[word_idx] |= mask`). -/
def cidSet (bm : Nat) (cid : Nat) : Nat := bm ||| 2 ^ cid

/-- Clear bit `cid` (C `io_cid_bitmap[word_idx] &= ~mask`; the complement is
taken within the 256 bits of the array). -/
def cidClear (bm : Nat) (cid : Nat) : Nat :=
  bm &&& (2 ^ NVME_IO_QUEUE_SIZE - 1 ^^^ 2 ^ cid)

/-- `nvme_prp_pool_alloc` (nvme_cmd.c:1079-1101): find the first set
(= free) bit of the 64-bit pool bitmap, clear it and return its index, or
return NONE when no page is free. -/
def nvme_prp_pool_alloc (bitmap : Nat) : Option (Nat × Nat) :=
  match (List.range NVME_PRP_POOL_SIZE).find? (fun i => bitmap.testBit i) with
  | some i => some (i, bitmap &&& (2 ^ NVME_PRP_POOL_SIZE - 1 ^^^ 2 ^ i))
  | none => none

/-- `nvme_prp_pool_free` (nvme_cmd.c:1112-1131): set bit `index` (1 = free);
out-of-range indices are rejected. -/
def nvme_prp_pool_free (bitmap : Nat) (index : Int) : Nat :=
  if index < 0 ∨ (NVME_PRP_POOL_SIZE : Int) ≤ index then bitmap
  else bitmap ||| 2 ^ index.toNat

/-- The body of the CID-search double loop of `nvme_io_cid_alloc`
(nvme_cmd.c:1170-1195): scan CIDs in ascending order (word 0 bit 0 … word 7
bit 31 — `cands` is `List.range 256`), set the bit of each free CID found and
collect it, stopping after `need` CIDs.  Returns the collected CIDs and the
updated bitmap. -/
def cidScanFrom (bm : Nat) (cands : List Nat) (need : Nat) :
    List Nat × Nat :=
  match cands with
  | [] => ([], bm)
  | cid :: rest =>
    if need = 0 then ([], bm)
    else if cidTest bm cid then cidScanFrom bm rest need
    else
      let out := cidScanFrom (cidSet bm cid) rest (need - 1)
      (cid :: out.1, out.2)

/-- The rollback loop of `nvme_io_cid_alloc` (nvme_cmd.c:1200-1206): clear
the bit of every collected CID, in collection order. -/
def cidRollback (bm : Nat) (cids : List Nat) : Nat :=
  cids.foldl cidClear bm

/-- `nvme_io_cid_alloc` (nvme_cmd.c:1152-1230).  `r` is the request pointer
(index into `st.reqs`).  On success returns the allocated CIDs (the C
`cid_array`), initializes each slot and stores the refcount `commands` in
`req->sr_ha`; on failure returns `none` after rolling the bitmap back. -/
def nvme_io_cid_alloc (st : DrvState) (r : Nat) (commands : Nat) :
    Option (List Nat) × DrvState :=
  if commands = 0 then (none, st)
  else
    let out := cidScanFrom st.io_cid_bitmap (List.range NVME_IO_QUEUE_SIZE)
      commands
    if out.1.length < commands then
      (none, { st with io_cid_bitmap := cidRollback out.2 out.1 })
    else
      let slots := out.1.foldl (fun s c => s.set c
        { req := some r, prpidx := List.replicate NVME_CMD_MAX_PRPS (-1) })
        st.io_requests
      let rq := st.reqs.getD r dummyReq
      (some out.1,
       { st with io_cid_bitmap := out.2, io_requests := slots,
                 reqs := st.reqs.set r { rq with sr_ha := commands } })

/-- `nvme_io_cid_done` (nvme_cmd.c:1245-1306): free the CID slot and its PRP
pages, clear the bitmap bit, decrement the refcount carried in `sr_ha`
(32-bit unsigned decrement), and return the request pointer iff the refcount
reached zero. -/
def nvme_io_cid_done (st : DrvState) (cid : Nat) : Option Nat × DrvState :=
  if NVME_IO_QUEUE_SIZE ≤ cid then (none, st)
  else
    let slot := st.io_requests.getD cid emptySlot
    let req := slot.req
    let pool := slot.prpidx.foldl
      (fun bm p => if 0 ≤ p then nvme_prp_pool_free bm p else bm)
      st.prp_pool_bitmap
    let slot' : CidSlot :=
      { req := none, prpidx := slot.prpidx.map fun p => if 0 ≤ p then -1 else p }
    let st1 := { st with
      io_requests := st.io_requests.set cid slot',
      prp_pool_bitmap := pool,
      io_cid_bitmap := cidClear st.io_cid_bitmap cid }
    match req with
    | none => (none, st1)
    | some r =>
      let rq := st1.reqs.getD r dummyReq
      let refcount := rq.sr_ha
      let refcount := if refcount = 0 then UINT32_MOD - 1 else refcount - 1
      if refcount = 0 then
        (some r, { st1 with reqs := st1.reqs.set r { rq with sr_ha := 0 } })
      else
        (none, { st1 with reqs := st1.reqs.set r { rq with sr_ha := refcount } })

/-- `nvme_io_cid_store_prp` (nvme_cmd.c:1311-1322): record one PRP pool page
against a CID in the first free (`-1`) slot of its `prpidx` array; fails when
all slots are used. -/
def nvme_io_cid_store_prp (prpidx : List Int) (p : Int) : Option (List Int) :=
  match prpidx.findIdx? (fun q => q = -1) with
  | some i => some (prpidx.set i p)
  | none => none

/-! ### Completion handling (nvme_cpl.c) -/

/-- `nvme_set_adapter_status` (nvme_cpl.c:12-19). -/
def nvme_set_adapter_status (req : ScsiRequest) (sr_status sr_scsi_status : Nat) :
    ScsiRequest :=
  { req with sr_status := sr_status, sr_scsi_status := sr_scsi_status,
             sr_resid := req.sr_buflen, sr_sensegotten := 0 }

/-- `nvme_set_success` (nvme_cpl.c:33-40). -/
def nvme_set_success (req : ScsiRequest) : ScsiRequest :=
  { req with sr_status := SC_GOOD, sr_scsi_status := ST_GOOD,
             sr_resid := 0, sr_sensegotten := 0 }

/-- The `(sense_key, asc)` switch of `nvme_map_status_to_sense`
(nvme_cpl.c:245-284). -/
def nvme_sense_key_asc (status_type status_code : Nat) : Nat × Nat :=
  if status_type = 0 then
    if status_code = NVME_SC_INVALID_OPCODE ∨
        status_code = NVME_SC_INVALID_FIELD ∨
        status_code = NVME_SC_INVALID_NS then (0x05, 0x20)
    else if status_code = NVME_SC_DATA_XFER_ERROR ∨
        status_code = NVME_SC_INTERNAL then (0x04, 0x44)
    else if status_code = NVME_SC_LBA_RANGE then (0x05, 0x21)
    else (0x0B, 0x00)
  else if status_type = 1 then (0x0B, 0x00)
  else if status_type = 2 then (0x03, 0x11)
  else (0x0B, 0x00)

/-- `nvme_map_status_to_sense` (nvme_cpl.c:238-302): compute sense key / ASC
from the NVMe status, write fixed-format sense data when the sense buffer
exists and holds at least 18 bytes (ASCQ = the NVMe status code), else zero
the produced-sense length; set CHECK status and full residual. -/
def nvme_map_status_to_sense (req : ScsiRequest)
    (status_type status_code : Nat) : ScsiRequest :=
  let ka := nvme_sense_key_asc status_type status_code
  let ascq := status_code
  if req.sr_sense.isSome ∧ 18 ≤ req.sr_senselen then
    { req with
      sr_sense := some (((((List.replicate req.sr_senselen 0).set 0 0x70).set
        2 ka.1).set 7 10).set 12 ka.2 |>.set 13 ascq),
      sr_sensegotten := 18,
      sr_status := SC_GOOD, sr_scsi_status := ST_CHECK,
      sr_resid := req.sr_buflen }
  else
    { req with
      sr_sensegotten := 0,
      sr_status := SC_GOOD, sr_scsi_status := ST_CHECK,
      sr_resid := req.sr_buflen }

/-- The 16-byte completion entry (only `dw3` is read by the I/O handler). -/
structure NvmeCompletion where
  dw0 : Nat := 0
  dw1 : Nat := 0
  dw2 : Nat := 0
  dw3 : Nat := 0
  deriving Repr, DecidableEq

/-- `nvme_handle_io_completion` (nvme_cpl.c:311-383).  Returns the updated
state and whether the upstream notify callback was invoked.  A reserved
flush CID is acknowledged without touching any state; a completion whose CID
yields no request (spurious or non-final sub-command) is discarded. -/
def nvme_handle_io_completion (st : DrvState) (cpl : NvmeCompletion) :
    DrvState × Bool :=
  let status_code := cpl.dw3 >>> 17 &&& 0x7F
  let cid := cpl.dw3 &&& 0xFFFF
  let status_type := cpl.dw3 >>> 25 &&& 0x7
  if cid = NVME_IO_CID_FLUSH then (st, false)
  else
    let out := nvme_io_cid_done st cid
    match out.1 with
    | none => (out.2, false)
    | some r =>
      let st' := out.2
      let rq := st'.reqs.getD r dummyReq
      let rq' := if status_code = NVME_SC_SUCCESS then nvme_set_success rq
        else nvme_map_status_to_sense rq status_type status_code
      if rq'.sr_notify then
        ({ st' with reqs := st'.reqs.set r { rq' with sr_ha := 0 } }, true)
      else
        ({ st' with reqs := st'.reqs.set r rq' }, false)

end NvmeDrv

namespace NvmeDrv

theorem getD_set_self {α : Type} (l : List α) (i : Nat) (v d : α)
    (h : i < l.length) : (l.set i v).getD i d = v := by
  simp [List.getD_eq_getElem?_getD, List.getElem?_set_self h]

theorem getD_set_ne {α : Type} (l : List α) (i j : Nat) (v d : α)
    (h : i ≠ j) : (l.set i v).getD j d = l.getD j d := by
  simp [List.getD_eq_getElem?_getD, List.getElem?_set_ne h]

/-- C7: the NVMe-status → SCSI-sense mapping.  Generic (type 0)
INVALID_OPCODE / INVALID_FIELD / INVALID_NS give sense key 0x05 with ASC
0x20; DATA_XFER_ERROR / INTERNAL give 0x04 / 0x44; LBA_RANGE gives 0x05 /
0x21; type 2 gives 0x03 / 0x11; everything else gives key 0x0B.  The writer
puts ASCQ = the NVMe status code, writes 18 bytes of fixed-format sense
(response code 0x70, additional length 10) when the sense buffer exists and
holds ≥ 18 bytes, zeroes the produced-sense length otherwise, and always
sets the residual to the full buffer length. -/
theorem map_status_to_sense_table :
    (nvme_sense_key_asc 0 NVME_SC_INVALID_OPCODE = (0x05, 0x20)) ∧
    (nvme_sense_key_asc 0 NVME_SC_INVALID_FIELD = (0x05, 0x20)) ∧
    (nvme_sense_key_asc 0 NVME_SC_INVALID_NS = (0x05, 0x20)) ∧
    (nvme_sense_key_asc 0 NVME_SC_DATA_XFER_ERROR = (0x04, 0x44)) ∧
    (nvme_sense_key_asc 0 NVME_SC_INTERNAL = (0x04, 0x44)) ∧
    (nvme_sense_key_asc 0 NVME_SC_LBA_RANGE = (0x05, 0x21)) ∧
    (∀ c, nvme_sense_key_asc 2 c = (0x03, 0x11)) ∧
    (∀ t c, (t = 0 → c ≠ NVME_SC_INVALID_OPCODE ∧ c ≠ NVME_SC_INVALID_FIELD ∧
        c ≠ NVME_SC_INVALID_NS ∧ c ≠ NVME_SC_DATA_XFER_ERROR ∧
        c ≠ NVME_SC_INTERNAL ∧ c ≠ NVME_SC_LBA_RANGE) → t ≠ 2 →
      (nvme_sense_key_asc t c).1 = 0x0B) ∧
    (∀ req t c,
      (nvme_map_status_to_sense req t c).sr_resid = req.sr_buflen ∧
      (nvme_map_status_to_sense req t c).sr_scsi_status = ST_CHECK ∧
      (∀ buf, req.sr_sense = some buf → 18 ≤ req.sr_senselen →
        (nvme_map_status_to_sense req t c).sr_sensegotten = 18 ∧
        ∃ s, (nvme_map_status_to_sense req t c).sr_sense = some s ∧
          s.length = req.sr_senselen ∧
          s.getD 0 0 = 0x70 ∧ s.getD 2 0 = (nvme_sense_key_asc t c).1 ∧
          s.getD 7 0 = 10 ∧ s.getD 12 0 = (nvme_sense_key_asc t c).2 ∧
          s.getD 13 0 = c) ∧
      ((req.sr_sense = none ∨ req.sr_senselen < 18) →
        (nvme_map_status_to_sense req t c).sr_sensegotten = 0)) := by
  refine ⟨rfl, rfl, rfl, rfl, rfl, rfl, ?_, ?_, ?_⟩
  · intro c
    unfold nvme_sense_key_asc
    norm_num
  · intro t c h0 h2
    unfold nvme_sense_key_asc
    rcases eq_or_ne t 0 with ht | ht
    · obtain ⟨n1, n2, n3, n4, n5, n6⟩ := h0 ht
      rw [if_pos ht, if_neg (by tauto), if_neg (by tauto), if_neg n6]
    · rw [if_neg ht]
      rcases eq_or_ne t 1 with ht1 | ht1
      · rw [if_pos ht1]
      · rw [if_neg ht1, if_neg h2]
  · intro req t c
    refine ⟨?_, ?_, ?_, ?_⟩
    · unfold nvme_map_status_to_sense
      split <;> rfl
    · unfold nvme_map_status_to_sense
      split <;> rfl
    · intro buf hbuf hlen
      unfold nvme_map_status_to_sense
      rw [if_pos ⟨by rw [hbuf]; rfl, hlen⟩]
      refine ⟨rfl, _, rfl, ?_, ?_, ?_, ?_, ?_, ?_⟩
      · simp [List.length_set]
      · rw [getD_set_ne _ _ _ _ _ (by norm_num),
          getD_set_ne _ _ _ _ _ (by norm_num),
          getD_set_ne _ _ _ _ _ (by norm_num),
          getD_set_ne _ _ _ _ _ (by norm_num),
          getD_set_self _ _ _ _ (by simp; omega)]
      · rw [getD_set_ne _ _ _ _ _ (by norm_num),
          getD_set_ne _ _ _ _ _ (by norm_num),
          getD_set_ne _ _ _ _ _ (by norm_num),
          getD_set_self _ _ _ _ (by simp; omega)]
      · rw [getD_set_ne _ _ _ _ _ (by norm_num),
          getD_set_ne _ _ _ _ _ (by norm_num),
          getD_set_self _ _ _ _ (by simp; omega)]
      · rw [getD_set_ne _ _ _ _ _ (by norm_num),
          getD_set_self _ _ _ _ (by simp; omega)]
      · rw [getD_set_self _ _ _ _ (by simp; omega)]
    · intro h
      unfold nvme_map_status_to_sense
      have hneg : ¬ (req.sr_sense.isSome = true ∧ 18 ≤ req.sr_senselen) := by
        rintro ⟨hs, hl⟩
        rcases h with h | h
        · rw [h] at hs
          simp at hs
        · omega
      rw [if_neg hneg]

/-- Closed witness for C7: LBA_RANGE error written into an 18-byte sense
buffer, and the missing-buffer case. -/
theorem map_status_to_sense_table_witness :
    ((nvme_map_status_to_sense
        { sr_sense := some (List.replicate 18 0), sr_senselen := 18,
          sr_buflen := 4096 } 0 NVME_SC_LBA_RANGE).sr_resid = 4096 ∧
     (nvme_map_status_to_sense
        { sr_sense := some (List.replicate 18 0), sr_senselen := 18,
          sr_buflen := 4096 } 0 NVME_SC_LBA_RANGE).sr_sensegotten = 18) ∧
    (nvme_sense_key_asc 2 0x55 = (0x03, 0x11)) ∧
    ((nvme_sense_key_asc 1 0x07).1 = 0x0B) ∧
    ((nvme_map_status_to_sense { sr_buflen := 512 } 0
        NVME_SC_INTERNAL).sr_sensegotten = 0) := by
  refine ⟨⟨?_, ?_⟩, ?_, ?_, ?_⟩
  · exact (map_status_to_sense_table.2.2.2.2.2.2.2.2 _ 0 NVME_SC_LBA_RANGE).1
  · exact ((map_status_to_sense_table.2.2.2.2.2.2.2.2 _ 0
      NVME_SC_LBA_RANGE).2.2.1 (List.replicate 18 0) rfl (by norm_num)).1
  · exact map_status_to_sense_table.2.2.2.2.2.2.1 0x55
  · exact map_status_to_sense_table.2.2.2.2.2.2.2.1 1 0x07
      (by intro h; cases h) (by norm_num)
  · exact (map_status_to_sense_table.2.2.2.2.2.2.2.2 _ 0
      NVME_SC_INTERNAL).2.2.2 (Or.inl rfl)

end NvmeDrv

namespace NvmeDrv

theorem set_getD_eq {α : Type} (l : List α) (i : Nat) (d : α) :
    l.set i (l.getD i d) = l := by
  rcases lt_or_ge i l.length with h | h
  · apply List.ext_getElem?
    intro n
    rcases eq_or_ne i n with rfl | hne
    · rw [List.getElem?_set_self h, List.getD_eq_getElem?_getD,
        List.getElem?_eq_getElem h]
      rfl
    · exact List.getElem?_set_ne hne
  · exact List.set_eq_of_length_le h

theorem testBit_high {bm n i : Nat} (hbm : bm < 2 ^ n) (hi : n ≤ i) :
    bm.testBit i = false :=
  Nat.testBit_lt_two_pow
    (lt_of_lt_of_le hbm (Nat.pow_le_pow_right (by norm_num) hi))

theorem testBit_cidSet (bm cid i : Nat) :
    (cidSet bm cid).testBit i = (bm.testBit i || decide (cid = i)) := by
  unfold cidSet
  rw [Nat.testBit_or, Nat.testBit_two_pow]

theorem testBit_cidClear (bm cid i : Nat) (hcid : cid < NVME_IO_QUEUE_SIZE) :
    (cidClear bm cid).testBit i =
      (bm.testBit i && decide (i < NVME_IO_QUEUE_SIZE) && !decide (cid = i)) := by
  unfold cidClear
  rw [Nat.testBit_and, Nat.testBit_xor, Nat.testBit_two_pow_sub_one,
    Nat.testBit_two_pow]
  rcases eq_or_ne cid i with rfl | hne
  · simp [hcid]
  · simp [hne]

theorem cidSet_lt (bm cid : Nat) (hbm : bm < 2 ^ NVME_IO_QUEUE_SIZE)
    (hcid : cid < NVME_IO_QUEUE_SIZE) :
    cidSet bm cid < 2 ^ NVME_IO_QUEUE_SIZE := by
  unfold cidSet
  exact Nat.or_lt_two_pow hbm
    (Nat.pow_lt_pow_right (by norm_num) hcid)

theorem cidClear_lt (bm cid : Nat) (hbm : bm < 2 ^ NVME_IO_QUEUE_SIZE) :
    cidClear bm cid < 2 ^ NVME_IO_QUEUE_SIZE := by
  unfold cidClear
  exact lt_of_le_of_lt Nat.and_le_left hbm

theorem cidClear_of_clear (bm cid : Nat)
    (hbm : bm < 2 ^ NVME_IO_QUEUE_SIZE) (hcid : cid < NVME_IO_QUEUE_SIZE)
    (h : bm.testBit cid = false) : cidClear bm cid = bm := by
  apply Nat.eq_of_testBit_eq
  intro i
  rw [testBit_cidClear bm cid i hcid]
  rcases eq_or_ne cid i with rfl | hne
  · simp [h]
  · rcases lt_or_ge i NVME_IO_QUEUE_SIZE with hi | hi
    · simp [hi, hne]
    · simp [testBit_high hbm hi]

end NvmeDrv

namespace NvmeDrv

theorem foldl_free_none (n : Nat) (bm : Nat) :
    (List.replicate n (-1 : Int)).foldl
      (fun bm p => if 0 ≤ p then nvme_prp_pool_free bm p else bm) bm = bm := by
  induction n generalizing bm with
  | zero => rfl
  | succ n ih =>
    rw [List.replicate_succ, List.foldl_cons]
    have h : (if (0 : Int) ≤ -1 then nvme_prp_pool_free bm (-1) else bm) =
        bm := by norm_num
    rw [h, ih]

/-- C9: `nvme_io_cid_done` on a currently-free CID (bitmap bit clear, no
request pointer, no owned PRP pages) returns NONE and changes nothing: the
CID bitmap, the slot array, the PRP pool bitmap and every request are left
exactly as they were; and the I/O completion handler discards such a
completion without invoking notify. -/
theorem cid_done_spurious (st : DrvState) (cid : Nat)
    (hbm : st.io_cid_bitmap < 2 ^ NVME_IO_QUEUE_SIZE)
    (hcid : cid < NVME_IO_QUEUE_SIZE)
    (hfree : st.io_cid_bitmap.testBit cid = false)
    (hslot : st.io_requests.getD cid emptySlot = emptySlot) :
    nvme_io_cid_done st cid = (none, st) ∧
    (∀ cpl : NvmeCompletion, cpl.dw3 &&& 0xFFFF = cid →
      cid ≠ NVME_IO_CID_FLUSH →
      nvme_handle_io_completion st cpl = (st, false)) := by
  have hmap : emptySlot.prpidx.map (fun p => if 0 ≤ p then (-1 : Int) else p) =
      emptySlot.prpidx := by
    show (List.replicate NVME_CMD_MAX_PRPS (-1 : Int)).map _ =
      List.replicate NVME_CMD_MAX_PRPS (-1 : Int)
    rw [List.map_replicate]
    norm_num
  have hpool : List.foldl (fun bm p => if 0 ≤ p then nvme_prp_pool_free bm p
      else bm) st.prp_pool_bitmap emptySlot.prpidx = st.prp_pool_bitmap :=
    foldl_free_none _ _
  have hsetid : st.io_requests.set cid
      ({ req := none, prpidx := emptySlot.prpidx } : CidSlot) =
      st.io_requests := by
    have h1 : ({ req := none, prpidx := emptySlot.prpidx } : CidSlot) =
        st.io_requests.getD cid emptySlot := by
      rw [hslot]
      rfl
    rw [h1]
    exact set_getD_eq st.io_requests cid emptySlot
  have hdone : nvme_io_cid_done st cid = (none, st) := by
    unfold nvme_io_cid_done
    rw [if_neg (by omega)]
    simp only [hslot, hmap, hpool, hsetid,
      cidClear_of_clear _ _ hbm hcid hfree]
    rfl
  refine ⟨hdone, ?_⟩
  intro cpl hc hne
  unfold nvme_handle_io_completion
  simp only [hc, if_neg hne, hdone]

/-- Closed witness for C9: a two-request state where CID 5 is free. -/
theorem cid_done_spurious_witness :
    (nvme_io_cid_done
        { io_cid_bitmap := 2 ^ 3,
          io_requests := List.replicate NVME_IO_QUEUE_SIZE emptySlot,
          prp_pool_bitmap := 2 ^ NVME_PRP_POOL_SIZE - 1,
          reqs := [{ sr_ha := 1 }] } 5 =
      (none,
        { io_cid_bitmap := 2 ^ 3,
          io_requests := List.replicate NVME_IO_QUEUE_SIZE emptySlot,
          prp_pool_bitmap := 2 ^ NVME_PRP_POOL_SIZE - 1,
          reqs := [{ sr_ha := 1 }] })) ∧
    (nvme_handle_io_completion
        { io_cid_bitmap := 2 ^ 3,
          io_requests := List.replicate NVME_IO_QUEUE_SIZE emptySlot,
          prp_pool_bitmap := 2 ^ NVME_PRP_POOL_SIZE - 1,
          reqs := [{ sr_ha := 1 }] } { dw3 := 5 } =
      ({ io_cid_bitmap := 2 ^ 3,
         io_requests := List.replicate NVME_IO_QUEUE_SIZE emptySlot,
         prp_pool_bitmap := 2 ^ NVME_PRP_POOL_SIZE - 1,
         reqs := [{ sr_ha := 1 }] }, false)) := by
  have h := cid_done_spurious
    { io_cid_bitmap := 2 ^ 3,
      io_requests := List.replicate NVME_IO_QUEUE_SIZE emptySlot,
      prp_pool_bitmap := 2 ^ NVME_PRP_POOL_SIZE - 1,
      reqs := [{ sr_ha := 1 }] } 5 (by norm_num [NVME_IO_QUEUE_SIZE])
    (by norm_num [NVME_IO_QUEUE_SIZE]) (by decide)
    (by rw [List.getD_eq_getElem?_getD, List.getElem?_replicate]
        norm_num [NVME_IO_QUEUE_SIZE])
  exact ⟨h.1, h.2 { dw3 := 5 } (by decide) (by decide)⟩

end NvmeDrv

namespace NvmeDrv

/-- Sequential completion of a list of CIDs (the completion engine drains the
CQ single-threaded, calling `nvme_io_cid_done` once per entry). -/
def doneSeq (st : DrvState) (cids : List Nat) : List (Option Nat) × DrvState :=
  match cids with
  | [] => ([], st)
  | c :: rest =>
    let out := nvme_io_cid_done st c
    let out2 := doneSeq out.2 rest
    (out.1 :: out2.1, out2.2)

/-- Sequential I/O completion handling of a list of CQ entries; collects for
each entry whether the upstream notify callback was invoked. -/
def handleSeq (st : DrvState) (cpls : List NvmeCompletion) :
    List Bool × DrvState :=
  match cpls with
  | [] => ([], st)
  | c :: rest =>
    let out := nvme_handle_io_completion st c
    let out2 := handleSeq out.1 rest
    (out.2 :: out2.1, out2.2)

/-- One `nvme_io_cid_done` step on an allocated CID whose request has
refcount `n + 1`: the slot and bitmap bit are released, the refcount is
decremented to `n`, and the request is returned iff `n = 0`. -/
theorem done_alloc_step (st : DrvState) (cid r n : Nat)
    (hcid : cid < NVME_IO_QUEUE_SIZE)
    (hslot : (st.io_requests.getD cid emptySlot).req = some r)
    (hha : (st.reqs.getD r dummyReq).sr_ha = n + 1) :
    nvme_io_cid_done st cid =
      ((if n = 0 then some r else none),
       { io_cid_bitmap := cidClear st.io_cid_bitmap cid,
         io_requests := st.io_requests.set cid
           { req := none,
             prpidx := (st.io_requests.getD cid emptySlot).prpidx.map
               fun p => if 0 ≤ p then -1 else p },
         prp_pool_bitmap := (st.io_requests.getD cid emptySlot).prpidx.foldl
           (fun bm p => if 0 ≤ p then nvme_prp_pool_free bm p else bm)
           st.prp_pool_bitmap,
         reqs := st.reqs.set r
           { st.reqs.getD r dummyReq with sr_ha := n } }) := by
  unfold nvme_io_cid_done
  rw [if_neg (by omega)]
  simp only [hslot, hha]
  rw [if_neg (by omega : ¬ n + 1 = 0)]
  simp only [Nat.add_sub_cancel]
  rcases eq_or_ne n 0 with rfl | hn0
  · simp
  · rw [if_neg hn0, if_neg hn0]

/-- Refcount countdown along a sequence of CID completions: with refcount
`cids.length + m` at the start, every call returns NONE — except that when
`m = 0` the last call returns the request — and the refcount ends at `m`. -/
theorem doneSeq_split (cids : List Nat) (st : DrvState) (r m : Nat)
    (hnodup : cids.Nodup)
    (hcids : ∀ c ∈ cids, c < NVME_IO_QUEUE_SIZE ∧
      (st.io_requests.getD c emptySlot).req = some r)
    (hr : r < st.reqs.length)
    (hha : (st.reqs.getD r dummyReq).sr_ha = cids.length + m)
    (hpos : 1 ≤ cids.length + m) :
    (doneSeq st cids).1 =
      (if m = 0 then List.replicate (cids.length - 1) none ++ [some r]
       else List.replicate cids.length none) ∧
    ((doneSeq st cids).2.reqs.getD r dummyReq).sr_ha = m ∧
    (doneSeq st cids).2.reqs.length = st.reqs.length ∧
    ((doneSeq st cids).2.reqs.getD r dummyReq).sr_notify =
      (st.reqs.getD r dummyReq).sr_notify := by
  induction cids generalizing st with
  | nil =>
    have hm : m ≠ 0 := by
      intro h
      rw [h] at hpos
      simp at hpos
    refine ⟨?_, ?_, rfl, rfl⟩
    · simp [doneSeq, if_neg hm]
    · show (st.reqs.getD r dummyReq).sr_ha = m
      rw [hha]
      simp
  | cons c rest ih =>
    obtain ⟨hc, hcslot⟩ := hcids c (List.mem_cons_self c rest)
    have hstep := done_alloc_step st c r (rest.length + m) hc hcslot
      (by rw [hha]; simp [List.length_cons]; ring)
    have hrest_nodup : rest.Nodup := (List.nodup_cons.mp hnodup).2
    have hcnotin : c ∉ rest := (List.nodup_cons.mp hnodup).1
    set st' : DrvState :=
      { io_cid_bitmap := cidClear st.io_cid_bitmap c,
        io_requests := st.io_requests.set c
          { req := none,
            prpidx := (st.io_requests.getD c emptySlot).prpidx.map
              fun p => if 0 ≤ p then -1 else p },
        prp_pool_bitmap := (st.io_requests.getD c emptySlot).prpidx.foldl
          (fun bm p => if 0 ≤ p then nvme_prp_pool_free bm p else bm)
          st.prp_pool_bitmap,
        reqs := st.reqs.set r
          { st.reqs.getD r dummyReq with sr_ha := rest.length + m } } with hst'
    have hreqs' : st'.reqs.length = st.reqs.length := by
      rw [hst']
      exact List.length_set st.reqs r _
    have hgetr : st'.reqs.getD r dummyReq =
        { st.reqs.getD r dummyReq with sr_ha := rest.length + m } := by
      rw [hst']
      exact getD_set_self _ _ _ _ hr
    rcases eq_or_ne (rest.length + m) 0 with hz | hnz
    · -- last sub-command: rest = [] and m = 0
      have hrest_nil : rest = [] := by
        rcases rest with _ | ⟨a, b⟩
        · rfl
        · simp [List.length_cons] at hz
      subst hrest_nil
      have hm0 : m = 0 := by simpa using hz
      subst hm0
      simp only [doneSeq, hstep]
      refine ⟨by simp [doneSeq], ?_, ?_, ?_⟩
      · show (st'.reqs.getD r dummyReq).sr_ha = 0
        rw [hgetr]
        simp
      · exact hreqs'
      · show (st'.reqs.getD r dummyReq).sr_notify = _
        rw [hgetr]
    · -- intermediate sub-command: refcount stays positive
      have hcids' : ∀ c' ∈ rest, c' < NVME_IO_QUEUE_SIZE ∧
          (st'.io_requests.getD c' emptySlot).req = some r := by
        intro c' hc'
        obtain ⟨h1, h2⟩ := hcids c' (List.mem_cons_of_mem _ hc')
        refine ⟨h1, ?_⟩
        rw [hst']
        have hne : c ≠ c' := fun he => hcnotin (he ▸ hc')
        rw [getD_set_ne _ _ _ _ _ hne]
        exact h2
      have hr' : r < st'.reqs.length := by rw [hreqs']; exact hr
      have hha' : (st'.reqs.getD r dummyReq).sr_ha = rest.length + m := by
        rw [hgetr]
      have := ih st' hrest_nodup hcids' hr' hha' (by omega)
      obtain ⟨ih1, ih2, ih3, ih4⟩ := this
      simp only [doneSeq, hstep]
      refine ⟨?_, ih2, by rw [ih3, hreqs'], by rw [ih4, hgetr]⟩
      rw [if_neg hnz, ih1]
      rcases eq_or_ne m 0 with rfl | hm
      · have hlen : 1 ≤ rest.length := by omega
        rw [if_pos rfl]
        rcases rest with _ | ⟨a, b⟩
        · simp at hlen
        · simp [List.replicate_succ]
      · simp only [if_neg hm]
        simp [List.replicate_succ]

end NvmeDrv

namespace NvmeDrv

/-- Notify countdown along a sequence of I/O completions for the CIDs of one
split request: only the completion that drops the refcount to zero invokes
the upstream notify callback. -/
theorem handleSeq_split (cids : List Nat) (st : DrvState) (r m : Nat)
    (hnodup : cids.Nodup)
    (hcids : ∀ c ∈ cids, c < NVME_IO_QUEUE_SIZE ∧
      (st.io_requests.getD c emptySlot).req = some r)
    (hr : r < st.reqs.length)
    (hha : (st.reqs.getD r dummyReq).sr_ha = cids.length + m)
    (hpos : 1 ≤ cids.length + m)
    (hnotify : (st.reqs.getD r dummyReq).sr_notify = true) :
    (handleSeq st (cids.map fun c => ({ dw3 := c } : NvmeCompletion))).1 =
      (if m = 0 then List.replicate (cids.length - 1) false ++ [true]
       else List.replicate cids.length false) := by
  induction cids generalizing st with
  | nil =>
    have hm : m ≠ 0 := by
      intro h
      rw [h] at hpos
      simp at hpos
    simp [handleSeq, if_neg hm]
  | cons c rest ih =>
    obtain ⟨hc, hcslot⟩ := hcids c (List.mem_cons_self c rest)
    have hstep := done_alloc_step st c r (rest.length + m) hc hcslot
      (by rw [hha]; simp [List.length_cons]; ring)
    have hrest_nodup : rest.Nodup := (List.nodup_cons.mp hnodup).2
    have hcnotin : c ∉ rest := (List.nodup_cons.mp hnodup).1
    set st' : DrvState :=
      { io_cid_bitmap := cidClear st.io_cid_bitmap c,
        io_requests := st.io_requests.set c
          { req := none,
            prpidx := (st.io_requests.getD c emptySlot).prpidx.map
              fun p => if 0 ≤ p then -1 else p },
        prp_pool_bitmap := (st.io_requests.getD c emptySlot).prpidx.foldl
          (fun bm p => if 0 ≤ p then nvme_prp_pool_free bm p else bm)
          st.prp_pool_bitmap,
        reqs := st.reqs.set r
          { st.reqs.getD r dummyReq with sr_ha := rest.length + m } } with hst'
    have hreqs' : st'.reqs.length = st.reqs.length := by
      rw [hst']
      exact List.length_set st.reqs r _
    have hgetr : st'.reqs.getD r dummyReq =
        { st.reqs.getD r dummyReq with sr_ha := rest.length + m } := by
      rw [hst']
      exact getD_set_self _ _ _ _ hr
    have hcid_ex : (({ dw3 := c } : NvmeCompletion).dw3 &&& 0xFFFF) = c := by
      show c &&& 0xFFFF = c
      have h16 := Nat.and_pow_two_sub_one_eq_mod c 16
      norm_num at h16
      rw [h16]
      norm_num [NVME_IO_QUEUE_SIZE] at hc
      omega
    have hcode : (({ dw3 := c } : NvmeCompletion).dw3 >>> 17 &&& 0x7F) = 0 := by
      show c >>> 17 &&& 0x7F = 0
      rw [Nat.shiftRight_eq_div_pow]
      have hdiv : c / 2 ^ 17 = 0 := Nat.div_eq_of_lt (by
        norm_num [NVME_IO_QUEUE_SIZE] at hc
        omega)
      rw [hdiv]
      rfl
    have hflush : c ≠ NVME_IO_CID_FLUSH := by
      simp only [NVME_IO_CID_FLUSH]
      norm_num [NVME_IO_QUEUE_SIZE] at hc
      omega
    simp only [List.map_cons, handleSeq]
    unfold nvme_handle_io_completion
    simp only [hcid_ex, hcode, if_neg hflush, hstep]
    rcases eq_or_ne (rest.length + m) 0 with hz | hnz
    · have hrest_nil : rest = [] := by
        rcases rest with _ | ⟨a, b⟩
        · rfl
        · simp [List.length_cons] at hz
      subst hrest_nil
      have hm0 : m = 0 := by simpa using hz
      subst hm0
      have hnotify2 : (st.reqs[r]?.getD dummyReq).sr_notify = true := by
        rw [← List.getD_eq_getElem?_getD]
        exact hnotify
      simp [handleSeq, nvme_set_success, List.getElem?_set_self hr, hnotify2,
        show NVME_SC_SUCCESS = 0 from rfl]
    · have hcids' : ∀ c' ∈ rest, c' < NVME_IO_QUEUE_SIZE ∧
          (st'.io_requests.getD c' emptySlot).req = some r := by
        intro c' hc'
        obtain ⟨h1, h2⟩ := hcids c' (List.mem_cons_of_mem _ hc')
        refine ⟨h1, ?_⟩
        rw [hst']
        have hne : c ≠ c' := fun he => hcnotin (he ▸ hc')
        rw [getD_set_ne _ _ _ _ _ hne]
        exact h2
      have hr' : r < st'.reqs.length := by rw [hreqs']; exact hr
      have hha' : (st'.reqs.getD r dummyReq).sr_ha = rest.length + m := by
        rw [hgetr]
      have hnotify' : (st'.reqs.getD r dummyReq).sr_notify = true := by
        rw [hgetr]
        exact hnotify
      have ihr := ih st' hrest_nodup hcids' hr' hha' (by omega) hnotify'
      simp only [if_neg hnz, ihr]
      rcases eq_or_ne m 0 with rfl | hm
      · have hlen : 1 ≤ rest.length := by omega
        rw [if_pos rfl, if_pos rfl]
        rcases rest with _ | ⟨a, b⟩
        · simp at hlen
        · simp [List.replicate_succ]
      · simp only [if_neg hm]
        simp [List.replicate_succ]

/-- C2: for a split request of K sub-commands whose K distinct CIDs were
allocated together with refcount K in `sr_ha`, each of the first K-1 calls
to `nvme_io_cid_done` returns NONE, the K-th returns the request with `sr_ha`
cleared to NONE (0), and the I/O completion handler invokes the upstream
notify callback exactly once — on the final sub-command's completion. -/
theorem split_refcount_notify_once (cids : List Nat) (st : DrvState) (r : Nat)
    (hK : 1 ≤ cids.length) (hnodup : cids.Nodup)
    (hcids : ∀ c ∈ cids, c < NVME_IO_QUEUE_SIZE ∧
      (st.io_requests.getD c emptySlot).req = some r)
    (hr : r < st.reqs.length)
    (hha : (st.reqs.getD r dummyReq).sr_ha = cids.length)
    (hnotify : (st.reqs.getD r dummyReq).sr_notify = true) :
    (doneSeq st cids).1 = List.replicate (cids.length - 1) none ++ [some r] ∧
    ((doneSeq st cids).2.reqs.getD r dummyReq).sr_ha = 0 ∧
    (handleSeq st (cids.map fun c => ({ dw3 := c } : NvmeCompletion))).1 =
      List.replicate (cids.length - 1) false ++ [true] := by
  have h1 := doneSeq_split cids st r 0 hnodup hcids hr (by rw [hha]; omega)
    (by omega)
  have h2 := handleSeq_split cids st r 0 hnodup hcids hr (by rw [hha]; omega)
    (by omega) hnotify
  rw [if_pos rfl] at h1 h2
  exact ⟨h1.1, h1.2.1, h2⟩

end NvmeDrv

namespace NvmeDrv

/-- Concrete state for the C2 witness: one request (index 0) split over CIDs
3 and 7, refcount 2. -/
def c2WitnessState : DrvState :=
  { io_cid_bitmap := 2 ^ 3 + 2 ^ 7,
    io_requests := ((List.replicate NVME_IO_QUEUE_SIZE emptySlot).set 3
      { req := some 0 }).set 7 { req := some 0 },
    prp_pool_bitmap := 2 ^ NVME_PRP_POOL_SIZE - 1,
    reqs := [{ sr_ha := 2, sr_notify := true }] }

/-- Closed witness for C2: split request with K = 2 over CIDs 3 and 7. -/
theorem split_refcount_notify_once_witness :
    (doneSeq c2WitnessState [3, 7]).1 =
      List.replicate ([3, 7].length - 1) none ++ [some 0] ∧
    ((doneSeq c2WitnessState [3, 7]).2.reqs.getD 0 dummyReq).sr_ha = 0 ∧
    (handleSeq c2WitnessState ([3, 7].map fun c =>
      ({ dw3 := c } : NvmeCompletion))).1 =
      List.replicate ([3, 7].length - 1) false ++ [true] :=
  split_refcount_notify_once [3, 7] c2WitnessState 0 (by decide) (by decide)
    (by decide) (by decide) (by decide) (by decide)

end NvmeDrv

namespace NvmeDrv

theorem cidRollback_lt (cids : List Nat) (bm : Nat)
    (hbm : bm < 2 ^ NVME_IO_QUEUE_SIZE) :
    cidRollback bm cids < 2 ^ NVME_IO_QUEUE_SIZE := by
  induction cids generalizing bm with
  | nil => exact hbm
  | cons c rest ih => exact ih _ (cidClear_lt bm c hbm)

theorem cidRollback_testBit (cids : List Nat) (bm : Nat)
    (hbm : bm < 2 ^ NVME_IO_QUEUE_SIZE)
    (hc : ∀ c ∈ cids, c < NVME_IO_QUEUE_SIZE) (i : Nat) :
    (cidRollback bm cids).testBit i =
      (bm.testBit i && !decide (i ∈ cids)) := by
  induction cids generalizing bm with
  | nil => simp [cidRollback]
  | cons c rest ih =>
    have hcN : c < NVME_IO_QUEUE_SIZE := hc c (List.mem_cons_self c rest)
    have hstep : cidRollback bm (c :: rest) = cidRollback (cidClear bm c) rest :=
      rfl
    rw [hstep, ih (cidClear bm c) (cidClear_lt bm c hbm)
      (fun c' h => hc c' (List.mem_cons_of_mem _ h))]
    rw [testBit_cidClear bm c i hcN]
    rcases eq_or_ne i c with rfl | hne
    · simp
    · rcases lt_or_ge i NVME_IO_QUEUE_SIZE with hi | hi
      · simp [hi, hne, Ne.symm hne]
      · simp [testBit_high hbm hi]

theorem cidScanFrom_spec (cands : List Nat) (bm : Nat) (need : Nat)
    (hnodup : cands.Nodup) (hc : ∀ c ∈ cands, c < NVME_IO_QUEUE_SIZE)
    (hbm : bm < 2 ^ NVME_IO_QUEUE_SIZE) :
    (cidScanFrom bm cands need).1.length =
      min need (cands.countP fun c => !bm.testBit c) ∧
    (cidScanFrom bm cands need).1.Nodup ∧
    (∀ c ∈ (cidScanFrom bm cands need).1, c ∈ cands ∧
      bm.testBit c = false ∧ c < NVME_IO_QUEUE_SIZE) ∧
    (∀ i, (cidScanFrom bm cands need).2.testBit i =
      (bm.testBit i || decide (i ∈ (cidScanFrom bm cands need).1))) ∧
    (cidScanFrom bm cands need).2 < 2 ^ NVME_IO_QUEUE_SIZE := by
  induction cands generalizing bm need with
  | nil => simp [cidScanFrom, hbm]
  | cons c rest ih =>
    have hcN : c < NVME_IO_QUEUE_SIZE := hc c (List.mem_cons_self c rest)
    have hrest_nodup : rest.Nodup := (List.nodup_cons.mp hnodup).2
    have hcnotin : c ∉ rest := (List.nodup_cons.mp hnodup).1
    have hrest : ∀ c' ∈ rest, c' < NVME_IO_QUEUE_SIZE :=
      fun c' h => hc c' (List.mem_cons_of_mem _ h)
    rcases eq_or_ne need 0 with rfl | hneed
    · simp [cidScanFrom, hbm]
    · rcases hocc : cidTest bm c with _ | _
      · -- bit clear: allocate c here
        have hfree : bm.testBit c = false := hocc
        have hbm' : cidSet bm c < 2 ^ NVME_IO_QUEUE_SIZE :=
          cidSet_lt bm c hbm hcN
        have ihr := ih (cidSet bm c) (need - 1) hrest_nodup hrest hbm'
        obtain ⟨ih1, ih2, ih3, ih4, ih5⟩ := ihr
        have hscan : cidScanFrom bm (c :: rest) need =
            (c :: (cidScanFrom (cidSet bm c) rest (need - 1)).1,
             (cidScanFrom (cidSet bm c) rest (need - 1)).2) := by
          show (if need = 0 then (([] : List Nat), bm)
            else if cidTest bm c = true then cidScanFrom bm rest need
            else (c :: (cidScanFrom (cidSet bm c) rest (need - 1)).1,
              (cidScanFrom (cidSet bm c) rest (need - 1)).2)) = _
          rw [if_neg hneed, if_neg (by rw [hocc]; simp)]
        have hagree : (rest.countP fun c' => !(cidSet bm c).testBit c') =
            (rest.countP fun c' => !bm.testBit c') := by
          apply List.countP_congr
          intro c' hc'
          have hne : c ≠ c' := fun he => hcnotin (he ▸ hc')
          rw [testBit_cidSet]
          simp [hne]
        have hsub : ∀ x ∈ (cidScanFrom (cidSet bm c) rest (need - 1)).1,
            x ∈ rest ∧ bm.testBit x = false ∧ x < NVME_IO_QUEUE_SIZE := by
          intro x hx
          obtain ⟨hx1, hx2, hx3⟩ := ih3 x hx
          refine ⟨hx1, ?_, hx3⟩
          rw [testBit_cidSet] at hx2
          exact (Bool.or_eq_false_iff.mp hx2).1
        refine ⟨?_, ?_, ?_, ?_, ?_⟩
        · rw [hscan]
          simp only [List.length_cons, ih1, hagree]
          rw [List.countP_cons_of_pos _ _ (by simp [hfree])]
          omega
        · rw [hscan]
          refine List.nodup_cons.mpr ⟨?_, ih2⟩
          intro hmem
          exact hcnotin (hsub c hmem).1
        · rw [hscan]
          intro x hx
          rcases List.mem_cons.mp hx with rfl | hx'
          · exact ⟨List.mem_cons_self _ _, hfree, hcN⟩
          · obtain ⟨h1, h2, h3⟩ := hsub x hx'
            exact ⟨List.mem_cons_of_mem _ h1, h2, h3⟩
        · rw [hscan]
          intro i
          rw [ih4 i, testBit_cidSet]
          rcases eq_or_ne i c with rfl | hne
          · simp
          · simp [hne, Ne.symm hne]
        · rw [hscan]
          exact ih5
      · -- bit set: c occupied, skip
        have hoccb : bm.testBit c = true := hocc
        have hscan : cidScanFrom bm (c :: rest) need =
            cidScanFrom bm rest need := by
          show (if need = 0 then (([] : List Nat), bm)
            else if cidTest bm c = true then cidScanFrom bm rest need
            else (c :: (cidScanFrom (cidSet bm c) rest (need - 1)).1,
              (cidScanFrom (cidSet bm c) rest (need - 1)).2)) = _
          rw [if_neg hneed, if_pos hocc]
        have ihr := ih bm need hrest_nodup hrest hbm
        obtain ⟨ih1, ih2, ih3, ih4, ih5⟩ := ihr
        refine ⟨?_, ?_, ?_, ?_, ?_⟩
        · rw [hscan, ih1, List.countP_cons_of_neg _ _ (by simp [hoccb])]
        · rw [hscan]; exact ih2
        · rw [hscan]
          intro x hx
          obtain ⟨h1, h2, h3⟩ := ih3 x hx
          exact ⟨List.mem_cons_of_mem _ h1, h2, h3⟩
        · rw [hscan]; exact ih4
        · rw [hscan]; exact ih5

end NvmeDrv

namespace NvmeDrv

theorem foldl_set_length (cids : List Nat) (slots : List CidSlot)
    (v : CidSlot) :
    (cids.foldl (fun s c => s.set c v) slots).length = slots.length := by
  induction cids generalizing slots with
  | nil => rfl
  | cons c rest ih =>
    rw [List.foldl_cons, ih, List.length_set]

theorem foldl_set_getD (cids : List Nat) (slots : List CidSlot) (v : CidSlot)
    (i : Nat) (hi : i < slots.length) :
    (cids.foldl (fun s c => s.set c v) slots).getD i emptySlot =
      if i ∈ cids then v else slots.getD i emptySlot := by
  induction cids generalizing slots with
  | nil => simp
  | cons c rest ih =>
    rw [List.foldl_cons, ih (slots.set c v) (by rw [List.length_set]; exact hi)]
    rcases Decidable.em (i ∈ rest) with hmem | hmem
    · rw [if_pos hmem, if_pos (List.mem_cons_of_mem _ hmem)]
    · rw [if_neg hmem]
      rcases eq_or_ne i c with rfl | hne
      · rw [if_pos (List.mem_cons_self _ _), getD_set_self _ _ _ _ hi]
      · rw [getD_set_ne _ _ _ _ _ (Ne.symm hne),
          if_neg (by
            intro h
            rcases List.mem_cons.mp h with h | h
            · exact hne h
            · exact hmem h)]

/-- C6: `nvme_io_cid_alloc` requesting `k ≥ 1` CIDs either reserves and
returns `k` pairwise-distinct previously-free CIDs — writing the request
pointer into each slot, initializing every `prp_indices` entry to NONE, and
storing the split refcount `k` in the request's `sr_ha` — or, when fewer
than `k` free slots exist, returns the error with the CID bitmap (and all
other state) exactly as before the call. -/
theorem cid_alloc_all_or_nothing (st : DrvState) (r commands : Nat)
    (hcmd : 1 ≤ commands)
    (hbm : st.io_cid_bitmap < 2 ^ NVME_IO_QUEUE_SIZE)
    (hslots : st.io_requests.length = NVME_IO_QUEUE_SIZE)
    (hr : r < st.reqs.length) :
    (commands ≤ (List.range NVME_IO_QUEUE_SIZE).countP
        (fun c => !st.io_cid_bitmap.testBit c) →
      ∃ cids, (nvme_io_cid_alloc st r commands).1 = some cids ∧
        cids.length = commands ∧ cids.Nodup ∧
        (∀ c ∈ cids, c < NVME_IO_QUEUE_SIZE ∧
          st.io_cid_bitmap.testBit c = false ∧
          (nvme_io_cid_alloc st r commands).2.io_requests.getD c emptySlot =
            { req := some r,
              prpidx := List.replicate NVME_CMD_MAX_PRPS (-1) } ∧
          (nvme_io_cid_alloc st r commands).2.io_cid_bitmap.testBit c =
            true) ∧
        (nvme_io_cid_alloc st r commands).2.reqs.getD r dummyReq =
          { st.reqs.getD r dummyReq with sr_ha := commands }) ∧
    ((List.range NVME_IO_QUEUE_SIZE).countP
        (fun c => !st.io_cid_bitmap.testBit c) < commands →
      nvme_io_cid_alloc st r commands = (none, st)) := by
  have hspec := cidScanFrom_spec (List.range NVME_IO_QUEUE_SIZE)
    st.io_cid_bitmap commands (List.nodup_range _)
    (fun c h => List.mem_range.mp h) hbm
  obtain ⟨hlen, hnodup, hmem, hbits, hlt⟩ := hspec
  constructor
  · intro hfree
    have hlen' : (cidScanFrom st.io_cid_bitmap
        (List.range NVME_IO_QUEUE_SIZE) commands).1.length = commands := by
      rw [hlen]
      omega
    have halloc : nvme_io_cid_alloc st r commands =
        (some (cidScanFrom st.io_cid_bitmap
            (List.range NVME_IO_QUEUE_SIZE) commands).1,
         { st with
           io_cid_bitmap := (cidScanFrom st.io_cid_bitmap
             (List.range NVME_IO_QUEUE_SIZE) commands).2,
           io_requests := (cidScanFrom st.io_cid_bitmap
             (List.range NVME_IO_QUEUE_SIZE) commands).1.foldl
             (fun s c => s.set c
               { req := some r,
                 prpidx := List.replicate NVME_CMD_MAX_PRPS (-1) })
             st.io_requests,
           reqs := st.reqs.set r
             { st.reqs.getD r dummyReq with sr_ha := commands } }) := by
      unfold nvme_io_cid_alloc
      rw [if_neg (by omega), if_neg (by omega)]
    refine ⟨_, by rw [halloc], hlen', hnodup, ?_, ?_⟩
    · intro c hcmem
      obtain ⟨hc1, hc2, hc3⟩ := hmem c hcmem
      refine ⟨hc3, hc2, ?_, ?_⟩
      · rw [halloc]
        show (List.foldl _ st.io_requests _).getD c emptySlot = _
        rw [foldl_set_getD _ _ _ _ (by rw [hslots]; exact hc3),
          if_pos hcmem]
      · rw [halloc]
        show ((cidScanFrom _ _ _).2).testBit c = true
        rw [hbits c]
        simp [hcmem]
    · rw [halloc]
      show (st.reqs.set r _).getD r dummyReq = _
      exact getD_set_self _ _ _ _ hr
  · intro hfree
    have hlen' : (cidScanFrom st.io_cid_bitmap
        (List.range NVME_IO_QUEUE_SIZE) commands).1.length < commands := by
      rw [hlen]
      omega
    have hrestore : cidRollback
        (cidScanFrom st.io_cid_bitmap (List.range NVME_IO_QUEUE_SIZE)
          commands).2
        (cidScanFrom st.io_cid_bitmap (List.range NVME_IO_QUEUE_SIZE)
          commands).1 = st.io_cid_bitmap := by
      apply Nat.eq_of_testBit_eq
      intro i
      rw [cidRollback_testBit _ _ hlt (fun c h => (hmem c h).2.2) i, hbits i]
      rcases Decidable.em
          (i ∈ (cidScanFrom st.io_cid_bitmap
            (List.range NVME_IO_QUEUE_SIZE) commands).1) with hmm | hmm
      · simp [hmm, (hmem i hmm).2.1]
      · simp [hmm]
    unfold nvme_io_cid_alloc
    rw [if_neg (by omega), if_pos hlen', hrestore]

/-- Closed witness for C6: allocating 2 CIDs from a bitmap with bits 0 and 2
occupied (success), and allocating 3 CIDs when only 2 are free (rollback). -/
theorem cid_alloc_all_or_nothing_witness :
    (∃ cids,
      (nvme_io_cid_alloc
        { io_cid_bitmap := 2 ^ NVME_IO_QUEUE_SIZE - 1 - 2 - 8,
          io_requests := List.replicate NVME_IO_QUEUE_SIZE emptySlot,
          prp_pool_bitmap := 2 ^ NVME_PRP_POOL_SIZE - 1,
          reqs := [{ sr_buflen := 512 }] } 0 2).1 = some cids ∧
      cids.length = 2 ∧ cids.Nodup ∧
      (∀ c ∈ cids, c < NVME_IO_QUEUE_SIZE ∧
        (2 ^ NVME_IO_QUEUE_SIZE - 1 - 2 - 8 : Nat).testBit c = false ∧
        (nvme_io_cid_alloc
          { io_cid_bitmap := 2 ^ NVME_IO_QUEUE_SIZE - 1 - 2 - 8,
            io_requests := List.replicate NVME_IO_QUEUE_SIZE emptySlot,
            prp_pool_bitmap := 2 ^ NVME_PRP_POOL_SIZE - 1,
            reqs := [{ sr_buflen := 512 }] } 0 2).2.io_requests.getD c
          emptySlot =
          { req := some 0, prpidx := List.replicate NVME_CMD_MAX_PRPS (-1) } ∧
        (nvme_io_cid_alloc
          { io_cid_bitmap := 2 ^ NVME_IO_QUEUE_SIZE - 1 - 2 - 8,
            io_requests := List.replicate NVME_IO_QUEUE_SIZE emptySlot,
            prp_pool_bitmap := 2 ^ NVME_PRP_POOL_SIZE - 1,
            reqs := [{ sr_buflen := 512 }] } 0 2).2.io_cid_bitmap.testBit c =
          true) ∧
      (nvme_io_cid_alloc
        { io_cid_bitmap := 2 ^ NVME_IO_QUEUE_SIZE - 1 - 2 - 8,
          io_requests := List.replicate NVME_IO_QUEUE_SIZE emptySlot,
          prp_pool_bitmap := 2 ^ NVME_PRP_POOL_SIZE - 1,
          reqs := [{ sr_buflen := 512 }] } 0 2).2.reqs.getD 0 dummyReq =
        { ([{ sr_buflen := 512 }] : List ScsiRequest).getD 0 dummyReq with
          sr_ha := 2 }) ∧
    (nvme_io_cid_alloc
      { io_cid_bitmap := 2 ^ NVME_IO_QUEUE_SIZE - 1 - 2 - 8,
        io_requests := List.replicate NVME_IO_QUEUE_SIZE emptySlot,
        prp_pool_bitmap := 2 ^ NVME_PRP_POOL_SIZE - 1,
        reqs := [{ sr_buflen := 512 }] } 0 3 =
      (none,
       { io_cid_bitmap := 2 ^ NVME_IO_QUEUE_SIZE - 1 - 2 - 8,
         io_requests := List.replicate NVME_IO_QUEUE_SIZE emptySlot,
         prp_pool_bitmap := 2 ^ NVME_PRP_POOL_SIZE - 1,
         reqs := [{ sr_buflen := 512 }] })) := by
  constructor
  · exact (cid_alloc_all_or_nothing _ 0 2 (by norm_num)
      (by norm_num [NVME_IO_QUEUE_SIZE])
      (by simp [NVME_IO_QUEUE_SIZE]) (by norm_num)).1 (by decide)
  · exact (cid_alloc_all_or_nothing _ 0 3 (by norm_num)
      (by norm_num [NVME_IO_QUEUE_SIZE])
      (by simp [NVME_IO_QUEUE_SIZE]) (by norm_num)).2 (by decide)

end NvmeDrv

namespace NvmeDrv

/-! ### PRP construction (nvme_cmd.c:800-981)

The SG cursor (`alenlist` + `nvme_get_translated_addr`) is modelled as the
list of chunks the successive `alenlist_get`/`pciio_dmatrans_addr` calls
return: each with its translated PCI address and byte length.  A chunk with
address 0 models a DMA-translation failure (`pciio_dmatrans_addr` returning
0); an exhausted list models `alenlist_get` failing.  Each 8-byte PRP-list
slot is modelled as one natural number (the C writes its two 32-bit dwords
`PHYS64_LO`/`PHYS64_HI` separately).
-/

/-- One chunk returned by `nvme_get_translated_addr` (nvme_cmd.c:516-548). -/
structure Chunk where
  addr : Nat
  len : Nat
  deriving Repr, DecidableEq

/-- State threaded through PRP construction: the command's PRP fields, the
PRP pool bitmap, the CID slot's `prp_indices`, the PRP-list pages allocated
so far (pool index and the page's `E` slots, in allocation order), and the
SCSI request (whose adapter status the pool-exhaustion path sets). -/
structure PrpState where
  cmd : NvmeCommand
  prp_pool_bitmap : Nat
  prpidx : List Int
  pages : List (Nat × List Nat)
  req : ScsiRequest
  deriving Repr, DecidableEq

/-- Write slot `slot` of the most recently allocated PRP-list page
(`prp_list_dwords[slot*2] / [slot*2+1]` in the C). -/
def setLastSlot (pages : List (Nat × List Nat)) (slot : Nat) (v : Nat) :
    List (Nat × List Nat) :=
  match pages.getLast? with
  | none => pages
  | some pg => pages.dropLast ++ [(pg.1, pg.2.set slot v)]

/-- The virtual/physical address of PRP pool page `i`
(`prp_pool_phys + i * nvme_page_size`). -/
def prpPoolPhys (soft : SoftCfg) (i : Nat) : Nat :=
  soft.prp_pool_phys + i * soft.nvme_page_size

/-- The PRP-list construction loop of `nvme_build_prps_from_alenlist`
(nvme_cmd.c:895-969).  Per iteration: fetch/translate the next chunk (hard
error 0 on failure); if `prp_index >= nvme_prp_entries - 1` allocate a new
PRP-list page (BUSY and -1 on pool exhaustion), record it against the CID,
set
PRP2 to it for the first page or chain it from the previous page's last
slot otherwise, and reset `prp_index`; write the chunk address at
`prp_index`; advance.  Returns the C result code and the final state. -/
def prp_list_loop (soft : SoftCfg) (chunks : List Chunk) (chunk_size : Nat)
    (prp_index : Nat) (st : PrpState) : Int × PrpState :=
  if chunk_size = 0 then (1, st)
  else
    match chunks with
    | [] => (0, st)
    | c :: rest =>
      if c.addr = 0 then (0, st)
      else if soft.nvme_prp_entries - 1 ≤ prp_index then
        match nvme_prp_pool_alloc st.prp_pool_bitmap with
        | none =>
          (-1, { st with
            req := nvme_set_adapter_status st.req SC_REQUEST ST_BUSY })
        | some pb =>
          match nvme_io_cid_store_prp st.prpidx pb.1 with
          | none =>
            (0, { st with
              prp_pool_bitmap := nvme_prp_pool_free pb.2 pb.1 })
          | some prpidx' =>
            let prp_phys := prpPoolPhys soft pb.1
            let st1 := { st with prp_pool_bitmap := pb.2, prpidx := prpidx' }
            let st2 := { st1 with
              cmd := if st1.pages.length = 0 then
                  { st1.cmd with prp2_lo := PHYS64_LO prp_phys,
                                 prp2_hi := PHYS64_HI prp_phys }
                else st1.cmd,
              pages := if st1.pages.length = 0 then st1.pages
                else setLastSlot st1.pages (soft.nvme_prp_entries - 1)
                  prp_phys }
            let st3 := { st2 with pages := st2.pages ++
              [(pb.1, List.replicate soft.nvme_prp_entries 0)] }
            let st4 := { st3 with pages := setLastSlot st3.pages 0 c.addr }
            prp_list_loop soft rest (chunk_size - c.len) 1 st4
      else
        let st1 := { st with
          pages := setLastSlot st.pages prp_index c.addr }
        prp_list_loop soft rest (chunk_size - c.len) (prp_index + 1) st1

/-- Shallow embedding of `nvme_build_prps_from_alenlist`
(nvme_cmd.c:800-981).  The `alenlist == NULL` early exit coincides with
`sr_buflen == 0` (`nvme_prepare_alenlist` yields a NULL list exactly then).
`chunk_size` arithmetic is the C `uint_t` computation made explicit.
Returns 1 on success, 0 on hard error (SG/DMA failure), -1 after setting
BUSY on pool exhaustion. -/
def nvme_build_prps_from_alenlist (soft : SoftCfg) (req : ScsiRequest)
    (cmd : NvmeCommand) (chunks : List Chunk) (cmd_index : Nat)
    (pool_bitmap : Nat) (prpidx : List Int) : Int × PrpState :=
  let cmd := { cmd with prp1_lo := 0, prp1_hi := 0, prp2_lo := 0,
                        prp2_hi := 0 }
  let st0 : PrpState := { cmd := cmd, prp_pool_bitmap := pool_bitmap,
                          prpidx := prpidx, pages := [], req := req }
  if req.sr_buflen = 0 then (1, st0)
  else
    let mtb := soft.max_transfer_blocks * soft.block_size % UINT32_MOD
    let sub := cmd_index * soft.max_transfer_blocks % UINT32_MOD *
      soft.block_size % UINT32_MOD
    let chunk_size := (req.sr_buflen + (UINT32_MOD - sub)) % UINT32_MOD
    let chunk_size := if chunk_size > mtb then mtb else chunk_size
    match chunks with
    | [] => (0, st0)
    | c :: rest =>
      if c.addr = 0 then (0, st0)
      else
        let st1 := { st0 with cmd := { st0.cmd with
          prp1_lo := PHYS64_LO c.addr, prp1_hi := PHYS64_HI c.addr } }
        let chunk_size := chunk_size - c.len
        if chunk_size = 0 then
          (1, { st1 with cmd := { st1.cmd with prp2_lo := 0,
                                               prp2_hi := 0 } })
        else if chunk_size ≤ soft.nvme_page_size then
          match rest with
          | [] => (0, st1)
          | c2 :: _ =>
            if c2.addr = 0 then (0, st1)
            else
              (1, { st1 with cmd := { st1.cmd with
                prp2_lo := PHYS64_LO c2.addr,
                prp2_hi := PHYS64_HI c2.addr } })
        else
          prp_list_loop soft rest chunk_size
            (soft.nvme_prp_entries - 1) st1

end NvmeDrv

namespace NvmeDrv

/-- Request-status tracking through the PRP-list loop: only the
pool-exhaustion path (return -1) touches the request, setting BUSY; the
hard-error (0) and success (1) paths leave the request untouched. -/
theorem prp_list_loop_req (soft : SoftCfg) (chunks : List Chunk)
    (cs pi : Nat) (st : PrpState) :
    ((prp_list_loop soft chunks cs pi st).1 = -1 →
      (prp_list_loop soft chunks cs pi st).2.req =
        nvme_set_adapter_status st.req SC_REQUEST ST_BUSY) ∧
    ((prp_list_loop soft chunks cs pi st).1 ≠ -1 →
      (prp_list_loop soft chunks cs pi st).2.req = st.req) := by
  induction chunks generalizing cs pi st with
  | nil =>
    unfold prp_list_loop
    rcases eq_or_ne cs 0 with rfl | hcs
    · rw [if_pos rfl]
      exact ⟨fun h => absurd h (by norm_num), fun _ => rfl⟩
    · rw [if_neg hcs]
      exact ⟨fun h => absurd h (by norm_num), fun _ => rfl⟩
  | cons c rest ih =>
    unfold prp_list_loop
    rcases eq_or_ne cs 0 with rfl | hcs
    · rw [if_pos rfl]
      exact ⟨fun h => absurd h (by norm_num), fun _ => rfl⟩
    · rw [if_neg hcs]
      dsimp only
      rcases eq_or_ne c.addr 0 with h0 | h0
      · rw [if_pos h0]
        exact ⟨fun h => absurd h (by norm_num), fun _ => rfl⟩
      · rw [if_neg h0]
        by_cases hpi : soft.nvme_prp_entries - 1 ≤ pi
        · rw [if_pos hpi]
          rcases halloc : nvme_prp_pool_alloc st.prp_pool_bitmap with _ | pb
          · exact ⟨fun _ => rfl, fun h => absurd rfl h⟩
          · dsimp only
            rcases hstore : nvme_io_cid_store_prp st.prpidx pb.1
                with _ | prpidx'
            · exact ⟨fun h => absurd (show (0 : Int) = -1 from h)
                (by norm_num), fun _ => rfl⟩
            · exact ih _ _ _
        · rw [if_neg hpi]
          exact ih _ _ _

/-- C8: PRP construction failure modes.  Whenever
`nvme_build_prps_from_alenlist` returns the retry indicator -1 it has set
the request's adapter status to `(SC_REQUEST, BUSY)`; whenever it returns
the hard-error indicator 0 it has left the request untouched (no BUSY); a
pool-exhaustion point (no free page when a PRP list is needed) yields -1,
and a fetch/translation failure yields 0. -/
theorem build_prps_failure_modes (soft : SoftCfg) (req : ScsiRequest)
    (cmd : NvmeCommand) (chunks : List Chunk) (cmd_index : Nat)
    (pool_bitmap : Nat) (prpidx : List Int) :
    ((nvme_build_prps_from_alenlist soft req cmd chunks cmd_index
        pool_bitmap prpidx).1 = -1 →
      (nvme_build_prps_from_alenlist soft req cmd chunks cmd_index
        pool_bitmap prpidx).2.req =
        nvme_set_adapter_status req SC_REQUEST ST_BUSY) ∧
    ((nvme_build_prps_from_alenlist soft req cmd chunks cmd_index
        pool_bitmap prpidx).1 ≠ -1 →
      (nvme_build_prps_from_alenlist soft req cmd chunks cmd_index
        pool_bitmap prpidx).2.req = req) ∧
    (∀ c0 c1 rest2, chunks = c0 :: c1 :: rest2 →
      nvme_prp_pool_alloc pool_bitmap = none →
      cmd_index = 0 → req.sr_buflen < 2 ^ 32 →
      req.sr_buflen ≤ soft.max_transfer_blocks * soft.block_size %
        UINT32_MOD →
      c0.addr ≠ 0 → c1.addr ≠ 0 →
      soft.nvme_page_size < req.sr_buflen - c0.len →
      (nvme_build_prps_from_alenlist soft req cmd chunks cmd_index
        pool_bitmap prpidx).1 = -1) ∧
    (chunks = [] → req.sr_buflen ≠ 0 →
      (nvme_build_prps_from_alenlist soft req cmd chunks cmd_index
        pool_bitmap prpidx).1 = 0) ∧
    (∀ c0 rest2, chunks = c0 :: rest2 → c0.addr = 0 → req.sr_buflen ≠ 0 →
      (nvme_build_prps_from_alenlist soft req cmd chunks cmd_index
        pool_bitmap prpidx).1 = 0) := by
  have hmain :
      ((nvme_build_prps_from_alenlist soft req cmd chunks cmd_index
          pool_bitmap prpidx).1 = -1 →
        (nvme_build_prps_from_alenlist soft req cmd chunks cmd_index
          pool_bitmap prpidx).2.req =
          nvme_set_adapter_status req SC_REQUEST ST_BUSY) ∧
      ((nvme_build_prps_from_alenlist soft req cmd chunks cmd_index
          pool_bitmap prpidx).1 ≠ -1 →
        (nvme_build_prps_from_alenlist soft req cmd chunks cmd_index
          pool_bitmap prpidx).2.req = req) := by
    unfold nvme_build_prps_from_alenlist
    rcases eq_or_ne req.sr_buflen 0 with hb | hb
    · rw [if_pos hb]
      exact ⟨fun h => absurd h (by norm_num), fun _ => rfl⟩
    · rw [if_neg hb]
      rcases chunks with _ | ⟨c, rest⟩
      · exact ⟨fun h => absurd (show (0 : Int) = -1 from h) (by norm_num),
          fun _ => rfl⟩
      · dsimp only
        rcases eq_or_ne c.addr 0 with h0 | h0
        · rw [if_pos h0]
          exact ⟨fun h => absurd h (by norm_num), fun _ => rfl⟩
        · rw [if_neg h0]
          split <;> split <;>
          first
          | exact ⟨fun h => absurd h (by norm_num), fun _ => rfl⟩
          | (split <;>
             first
             | exact prp_list_loop_req soft rest _ _ _
             | (rcases rest with _ | ⟨c2, rest2⟩
                · exact ⟨fun h => absurd (show (0 : Int) = -1 from h)
                    (by norm_num), fun _ => rfl⟩
                · dsimp only
                  rcases eq_or_ne c2.addr 0 with h02 | h02
                  · rw [if_pos h02]
                    exact ⟨fun h => absurd h (by norm_num), fun _ => rfl⟩
                  · rw [if_neg h02]
                    exact ⟨fun h => absurd h (by norm_num), fun _ => rfl⟩))
  refine ⟨hmain.1, hmain.2, ?_, ?_, ?_⟩
  · rintro c0 c1 rest2 rfl hpool rfl hbw hmtb h0 h1 hbig
    have hb : req.sr_buflen ≠ 0 := by omega
    unfold nvme_build_prps_from_alenlist
    rw [if_neg hb]
    dsimp only
    rw [if_neg h0]
    have hsub : 0 * soft.max_transfer_blocks % UINT32_MOD *
        soft.block_size % UINT32_MOD = 0 := by
      simp
    rw [hsub]
    have hcs : (req.sr_buflen + (UINT32_MOD - 0)) % UINT32_MOD =
        req.sr_buflen := by
      rw [Nat.sub_zero, Nat.add_mod_right]
      exact Nat.mod_eq_of_lt hbw
    rw [hcs, if_neg (by omega : ¬ req.sr_buflen >
      soft.max_transfer_blocks * soft.block_size % UINT32_MOD)]
    rw [if_neg (by omega : ¬ req.sr_buflen - c0.len = 0),
      if_neg (by omega : ¬ req.sr_buflen - c0.len ≤ soft.nvme_page_size)]
    unfold prp_list_loop
    rw [if_neg (by omega : ¬ req.sr_buflen - c0.len = 0)]
    dsimp only
    rw [if_neg h1, if_pos (Nat.le_refl _), hpool]
  · rintro rfl hb
    unfold nvme_build_prps_from_alenlist
    rw [if_neg hb]
  · rintro c0 rest2 rfl h0 hb
    unfold nvme_build_prps_from_alenlist
    rw [if_neg hb]
    dsimp only
    rw [if_pos h0]

end NvmeDrv

namespace NvmeDrv

/-- Closed witness for C8: a 3-page transfer with an empty PRP pool gets
BUSY and -1; a first-chunk DMA-translation failure gets 0 with the request
untouched. -/
theorem build_prps_failure_modes_witness :
    ((nvme_build_prps_from_alenlist ⟨0xFFFF, 512, 4096, 512, 0x100000⟩
        { sr_buflen := 12288 } {}
        [⟨0xA000, 4096⟩, ⟨0xB000, 4096⟩, ⟨0xC000, 4096⟩] 0 0
        (List.replicate NVME_CMD_MAX_PRPS (-1))).1 = -1 ∧
     (nvme_build_prps_from_alenlist ⟨0xFFFF, 512, 4096, 512, 0x100000⟩
        { sr_buflen := 12288 } {}
        [⟨0xA000, 4096⟩, ⟨0xB000, 4096⟩, ⟨0xC000, 4096⟩] 0 0
        (List.replicate NVME_CMD_MAX_PRPS (-1))).2.req =
       nvme_set_adapter_status { sr_buflen := 12288 } SC_REQUEST ST_BUSY) ∧
    ((nvme_build_prps_from_alenlist ⟨0xFFFF, 512, 4096, 512, 0x100000⟩
        { sr_buflen := 12288 } {} [⟨0, 4096⟩] 0 (2 ^ NVME_PRP_POOL_SIZE - 1)
        (List.replicate NVME_CMD_MAX_PRPS (-1))).1 = 0 ∧
     (nvme_build_prps_from_alenlist ⟨0xFFFF, 512, 4096, 512, 0x100000⟩
        { sr_buflen := 12288 } {} [⟨0, 4096⟩] 0 (2 ^ NVME_PRP_POOL_SIZE - 1)
        (List.replicate NVME_CMD_MAX_PRPS (-1))).2.req =
       { sr_buflen := 12288 }) := by
  have h := build_prps_failure_modes ⟨0xFFFF, 512, 4096, 512, 0x100000⟩
    { sr_buflen := 12288 } {}
    [⟨0xA000, 4096⟩, ⟨0xB000, 4096⟩, ⟨0xC000, 4096⟩] 0 0
    (List.replicate NVME_CMD_MAX_PRPS (-1))
  have h3 := h.2.2.1 ⟨0xA000, 4096⟩ ⟨0xB000, 4096⟩ [⟨0xC000, 4096⟩] rfl
    (by decide) rfl (by norm_num) (by decide) (by decide) (by decide)
    (by norm_num)
  have h' := build_prps_failure_modes ⟨0xFFFF, 512, 4096, 512, 0x100000⟩
    { sr_buflen := 12288 } {} [⟨0, 4096⟩] 0 (2 ^ NVME_PRP_POOL_SIZE - 1)
    (List.replicate NVME_CMD_MAX_PRPS (-1))
  have h5 := h'.2.2.2.2 ⟨0, 4096⟩ [] rfl rfl (by norm_num)
  exact ⟨⟨h3, h.1 h3⟩, ⟨h5, h'.2.1 (by rw [h5]; norm_num)⟩⟩

end NvmeDrv

namespace NvmeDrv

/-- Write `vals` into consecutive slots of a page starting at `start`
(the sequential `NVME_MEMWR` stores of the PRP-list loop). -/
def writeSeq (page : List Nat) (start : Nat) (vals : List Nat) : List Nat :=
  match vals with
  | [] => page
  | v :: vs => writeSeq (page.set start v) (start + 1) vs

/-- Write `vals` into consecutive slots of the most recently allocated
PRP-list page starting at `start`. -/
def setSeqLast (pages : List (Nat × List Nat)) (start : Nat)
    (vals : List Nat) : List (Nat × List Nat) :=
  match pages.getLast? with
  | none => pages
  | some pg => pages.dropLast ++ [(pg.1, writeSeq pg.2 start vals)]

/-- Split a list into consecutive groups of `m + 1` elements (the last group
may be shorter but is never empty). -/
def chunksSucc (m : Nat) : List α → List (List α)
  | [] => []
  | x :: xs => (x :: xs).take (m + 1) :: chunksSucc m ((x :: xs).drop (m + 1))
  termination_by l => l.length
  decreasing_by
    simp only [List.length_drop, List.length_cons]
    omega

/-- The page layout produced by the PRP-list loop: for each new pool page
`p` with data group `g`, chain the previous page's last slot to `p` (a
no-op when there is no previous page) and append `p` holding `g` in its
leading slots. -/
def appendChain (E : Nat) (physOf : Nat → Nat) :
    List (Nat × List Nat) → List Nat → List (List Nat) →
    List (Nat × List Nat)
  | pages, [], _ => pages
  | pages, _ :: _, [] => pages
  | pages, p :: ps, g :: gs =>
      appendChain E physOf
        (setLastSlot pages (E - 1) (physOf p) ++
          [(p, writeSeq (List.replicate E 0) 0 g)]) ps gs

theorem setLastSlot_append (pages : List (Nat × List Nat))
    (pg : Nat × List Nat) (slot v : Nat) :
    setLastSlot (pages ++ [pg]) slot v =
      pages ++ [(pg.1, pg.2.set slot v)] := by
  unfold setLastSlot
  rw [List.getLast?_concat, List.dropLast_concat]

theorem setSeqLast_append (pages : List (Nat × List Nat))
    (pg : Nat × List Nat) (start : Nat) (vals : List Nat) :
    setSeqLast (pages ++ [pg]) start vals =
      pages ++ [(pg.1, writeSeq pg.2 start vals)] := by
  unfold setSeqLast
  rw [List.getLast?_concat, List.dropLast_concat]

theorem setSeqLast_nil_vals (pages : List (Nat × List Nat)) (start : Nat) :
    setSeqLast pages start [] = pages := by
  rcases List.eq_nil_or_concat pages with rfl | ⟨q, pg, rfl⟩
  · rfl
  · rw [List.concat_eq_append, setSeqLast_append]
    rfl

theorem setSeqLast_cons (pages : List (Nat × List Nat)) (start v : Nat)
    (vs : List Nat) :
    setSeqLast pages start (v :: vs) =
      setSeqLast (setLastSlot pages start v) (start + 1) vs := by
  rcases List.eq_nil_or_concat pages with rfl | ⟨q, pg, rfl⟩
  · rfl
  · rw [List.concat_eq_append, setSeqLast_append, setLastSlot_append,
      setSeqLast_append]
    rfl

end NvmeDrv

namespace NvmeDrv

/-- Filling the current PRP-list page: while `prp_index` stays below
`nvme_prp_entries - 1` each chunk address is written to the next slot of
the last page; when the chunks fit entirely the loop ends successfully
with exactly those sequential writes and no other state change. -/
theorem prp_loop_fill_fits (soft : SoftCfg) (rest : List Chunk)
    (pi : Nat) (st : PrpState)
    (haddr : ∀ c ∈ rest, c.addr ≠ 0)
    (hlens : ∀ c ∈ rest, 0 < c.len)
    (hfit : pi + rest.length ≤ soft.nvme_prp_entries - 1) :
    prp_list_loop soft rest ((rest.map Chunk.len).sum) pi st =
      (1, { st with
        pages := setSeqLast st.pages pi (rest.map Chunk.addr) }) := by
  induction rest generalizing pi st with
  | nil =>
    simp only [List.map_nil, List.sum_nil, setSeqLast_nil_vals]
    rfl
  | cons c rest ih =>
    have hlen : 0 < c.len := hlens c (List.mem_cons_self c rest)
    have hcs : (List.map Chunk.len (c :: rest)).sum ≠ 0 := by
      simp only [List.map_cons, List.sum_cons]
      omega
    unfold prp_list_loop
    rw [if_neg hcs]
    dsimp only
    rw [if_neg (haddr c (List.mem_cons_self c rest))]
    have hpi : ¬ soft.nvme_prp_entries - 1 ≤ pi := by
      simp only [List.length_cons] at hfit
      omega
    rw [if_neg hpi]
    have hsub : (List.map Chunk.len (c :: rest)).sum - c.len =
        (rest.map Chunk.len).sum := by
      simp only [List.map_cons, List.sum_cons]
      omega
    rw [hsub]
    have hfit' : pi + 1 + rest.length ≤ soft.nvme_prp_entries - 1 := by
      simp only [List.length_cons] at hfit
      omega
    rw [ih (pi + 1) { st with pages := setLastSlot st.pages pi c.addr }
      (fun x hx => haddr x (List.mem_cons_of_mem c hx))
      (fun x hx => hlens x (List.mem_cons_of_mem c hx)) hfit']
    rw [List.map_cons, setSeqLast_cons]

end NvmeDrv

namespace NvmeDrv

/-- Filling the current PRP-list page up to its boundary: when more chunks
remain than the `room` slots left before `nvme_prp_entries - 1`, the loop
writes the next `room` chunk addresses sequentially and continues from
`prp_index = nvme_prp_entries - 1` (where the next iteration allocates a
fresh page). -/
theorem prp_loop_fill_to_boundary (soft : SoftCfg) (room : Nat) :
    ∀ (rest : List Chunk) (pi : Nat) (st : PrpState),
    (∀ c ∈ rest, c.addr ≠ 0) → (∀ c ∈ rest, 0 < c.len) →
    room = soft.nvme_prp_entries - 1 - pi →
    pi ≤ soft.nvme_prp_entries - 1 →
    room < rest.length →
    prp_list_loop soft rest ((rest.map Chunk.len).sum) pi st =
      prp_list_loop soft (rest.drop room)
        (((rest.drop room).map Chunk.len).sum)
        (soft.nvme_prp_entries - 1)
        { st with
          pages := setSeqLast st.pages pi ((rest.take room).map Chunk.addr) }
    := by
  induction room with
  | zero =>
    intro rest pi st _ _ hroom hpi _
    have hpieq : pi = soft.nvme_prp_entries - 1 := by omega
    rw [hpieq]
    simp only [List.drop_zero, List.take_zero, List.map_nil,
      setSeqLast_nil_vals]
  | succ r ih =>
    intro rest pi st haddr hlens hroom hpi hlong
    rcases rest with _ | ⟨c, rest⟩
    · simp at hlong
    · have hlen : 0 < c.len := hlens c (List.mem_cons_self c rest)
      have hcs : (List.map Chunk.len (c :: rest)).sum ≠ 0 := by
        simp only [List.map_cons, List.sum_cons]
        omega
      unfold prp_list_loop
      rw [if_neg hcs]
      dsimp only
      rw [if_neg (haddr c (List.mem_cons_self c rest))]
      have hpilt : ¬ soft.nvme_prp_entries - 1 ≤ pi := by omega
      rw [if_neg hpilt]
      have hsub : (List.map Chunk.len (c :: rest)).sum - c.len =
          (rest.map Chunk.len).sum := by
        simp only [List.map_cons, List.sum_cons]
        omega
      rw [hsub]
      have hlong' : r < rest.length := by
        simp only [List.length_cons] at hlong
        omega
      rw [ih rest (pi + 1) { st with pages := setLastSlot st.pages pi c.addr }
        (fun x hx => haddr x (List.mem_cons_of_mem c hx))
        (fun x hx => hlens x (List.mem_cons_of_mem c hx))
        (by omega) (by omega) hlong']
      rw [List.drop_succ_cons, List.take_succ_cons, List.map_cons,
        setSeqLast_cons]
      dsimp only
      conv_lhs => unfold prp_list_loop

end NvmeDrv

namespace NvmeDrv

theorem setLastSlot_nil (slot v : Nat) : setLastSlot [] slot v = [] := rfl

/-- One page-boundary iteration of the PRP-list loop: with `prp_index` at
`nvme_prp_entries - 1` and a successful pool allocation and CID
registration, the loop allocates page `p`, sets PRP2 to it (first page) or
chains it from the previous page's last slot, writes the chunk address to
slot 0 of the new page, and continues from `prp_index = 1`. -/
theorem prp_loop_alloc_step (soft : SoftCfg) (c : Chunk) (rest : List Chunk)
    (cs : Nat) (st : PrpState) (p bm' : Nat) (prpidx' : List Int)
    (hcs : cs ≠ 0) (hc0 : c.addr ≠ 0)
    (halloc : nvme_prp_pool_alloc st.prp_pool_bitmap = some (p, bm'))
    (hstore : nvme_io_cid_store_prp st.prpidx p = some prpidx') :
    prp_list_loop soft (c :: rest) cs (soft.nvme_prp_entries - 1) st =
      prp_list_loop soft rest (cs - c.len) 1
        { cmd := if st.pages.length = 0 then
            { st.cmd with
              prp2_lo := PHYS64_LO (prpPoolPhys soft p),
              prp2_hi := PHYS64_HI (prpPoolPhys soft p) }
          else st.cmd,
          prp_pool_bitmap := bm',
          prpidx := prpidx',
          pages := (if st.pages.length = 0 then st.pages
              else setLastSlot st.pages (soft.nvme_prp_entries - 1)
                (prpPoolPhys soft p)) ++
            [(p, (List.replicate soft.nvme_prp_entries 0).set 0 c.addr)],
          req := st.req } := by
  unfold prp_list_loop
  rw [if_neg hcs]
  dsimp only
  rw [if_neg hc0, if_pos (le_refl (soft.nvme_prp_entries - 1)), halloc]
  dsimp only
  rw [hstore]
  dsimp only
  rw [setLastSlot_append]
  dsimp only
  conv_lhs => unfold prp_list_loop

end NvmeDrv

namespace NvmeDrv

theorem chunksSucc_nil (m : Nat) : chunksSucc m ([] : List α) = [] := by
  rw [chunksSucc]

theorem chunksSucc_cons (m : Nat) (x : α) (xs : List α) :
    chunksSucc m (x :: xs) =
      (x :: xs).take (m + 1) :: chunksSucc m ((x :: xs).drop (m + 1)) := by
  rw [chunksSucc]

/-- A nonempty list no longer than the group size forms a single group. -/
theorem chunksSucc_of_short (m : Nat) (l : List α) (hne : l ≠ [])
    (hlen : l.length ≤ m + 1) : chunksSucc m l = [l] := by
  rcases l with _ | ⟨x, xs⟩
  · exact absurd rfl hne
  · rw [chunksSucc_cons, List.take_of_length_le hlen,
      List.drop_eq_nil_of_le hlen, chunksSucc_nil]

/-- Number of groups: the length of the source divided by the group size,
rounded up. -/
theorem chunksSucc_length (m : Nat) :
    ∀ n (l : List α), l.length ≤ n →
      (chunksSucc m l).length = (l.length + m) / (m + 1) := by
  intro n
  induction n with
  | zero =>
    intro l hl
    have hnil : l = [] := List.eq_nil_of_length_eq_zero (Nat.le_zero.mp hl)
    subst hnil
    have hdiv : m / (m + 1) = 0 := Nat.div_eq_of_lt (by omega)
    simp [chunksSucc_nil, hdiv]
  | succ n ih =>
    intro l hl
    rcases l with _ | ⟨x, xs⟩
    · have hdiv : m / (m + 1) = 0 := Nat.div_eq_of_lt (by omega)
      simp [chunksSucc_nil, hdiv]
    · rw [chunksSucc_cons]
      by_cases hshort : (x :: xs).length ≤ m + 1
      · rw [List.drop_eq_nil_of_le hshort, chunksSucc_nil]
        simp only [List.length_cons, List.length_nil]
        symm
        apply Nat.div_eq_of_lt_le <;>
          simp only [List.length_cons] at hshort ⊢ <;> omega
      · push_neg at hshort
        have hdl : ((x :: xs).drop (m + 1)).length ≤ n := by
          simp only [List.length_drop, List.length_cons] at *
          omega
        rw [List.length_cons, ih _ hdl]
        simp only [List.length_drop, List.length_cons] at hshort ⊢
        rw [show xs.length + 1 + m =
            (xs.length + 1 - (m + 1) + m) + (m + 1) by omega]
        rw [Nat.add_div_right _ (Nat.succ_pos m)]

end NvmeDrv

namespace NvmeDrv

/-- Grouping loses no element: the groups concatenate back to the source
list. -/
theorem chunksSucc_join (m : Nat) :
    ∀ n (l : List α), l.length ≤ n → (chunksSucc m l).flatten = l := by
  intro n
  induction n with
  | zero =>
    intro l hl
    have hnil : l = [] := List.eq_nil_of_length_eq_zero (Nat.le_zero.mp hl)
    subst hnil
    rw [chunksSucc_nil]
    rfl
  | succ n ih =>
    intro l hl
    rcases l with _ | ⟨x, xs⟩
    · rw [chunksSucc_nil]
      rfl
    · rw [chunksSucc_cons]
      have hdl : ((x :: xs).drop (m + 1)).length ≤ n := by
        simp only [List.length_drop, List.length_cons] at *
        omega
      rw [List.flatten_cons, ih _ hdl, List.take_append_drop]

/-- The `j`-th group is the `j`-th window of `m + 1` consecutive elements. -/
theorem chunksSucc_getD (m : Nat) :
    ∀ n (l : List α) (j : Nat), l.length ≤ n →
      j < (chunksSucc m l).length →
      (chunksSucc m l).getD j [] = (l.drop (j * (m + 1))).take (m + 1) := by
  intro n
  induction n with
  | zero =>
    intro l j hl hj
    have hnil : l = [] := List.eq_nil_of_length_eq_zero (Nat.le_zero.mp hl)
    subst hnil
    rw [chunksSucc_nil] at hj
    exact absurd hj (by simp)
  | succ n ih =>
    intro l j hl hj
    rcases l with _ | ⟨x, xs⟩
    · rw [chunksSucc_nil] at hj
      exact absurd hj (by simp)
    · rw [chunksSucc_cons]
      rcases j with _ | j
      · rw [List.getD_cons_zero, Nat.zero_mul, List.drop_zero]
      · have hdl : ((x :: xs).drop (m + 1)).length ≤ n := by
          simp only [List.length_drop, List.length_cons] at *
          omega
        rw [chunksSucc_cons] at hj
        rw [List.getD_cons_succ,
          ih ((x :: xs).drop (m + 1)) j hdl (by
            simpa using Nat.lt_of_succ_lt_succ hj),
          List.drop_drop]
        rw [show m + 1 + j * (m + 1) = (j + 1) * (m + 1) by ring]

end NvmeDrv

namespace NvmeDrv

theorem writeSeq_cons (page : List Nat) (s v : Nat) (vs : List Nat) :
    writeSeq page s (v :: vs) = writeSeq (page.set s v) (s + 1) vs := rfl

theorem appendChain_nil_ps (E : Nat) (f : Nat → Nat)
    (pages : List (Nat × List Nat)) (gs : List (List Nat)) :
    appendChain E f pages [] gs = pages := rfl

theorem appendChain_cons (E : Nat) (f : Nat → Nat)
    (pages : List (Nat × List Nat)) (p : Nat) (ps : List Nat)
    (g : List Nat) (gs : List (List Nat)) :
    appendChain E f pages (p :: ps) (g :: gs) =
      appendChain E f
        (setLastSlot pages (E - 1) (f p) ++
          [(p, writeSeq (List.replicate E 0) 0 g)]) ps gs := rfl

/-- The conditional chain-write of the loop coincides with the
unconditional one: on an empty page list `setLastSlot` is a no-op. -/
theorem ite_setLastSlot (pages : List (Nat × List Nat)) (slot v : Nat) :
    (if pages.length = 0 then pages else setLastSlot pages slot v) =
      setLastSlot pages slot v := by
  by_cases h : pages.length = 0
  · rw [if_pos h, List.length_eq_zero.mp h, setLastSlot_nil]
  · rw [if_neg h]

/-- The PRP-list loop from a page boundary: on success it allocates one
pool page per group of `nvme_prp_entries - 1` chunk addresses, laying the
pages out as `appendChain` (each page's leading slots hold its group, each
non-final page's last slot chains to the next page) and pointing PRP2 at
the first allocated page when none existed before. -/
theorem prp_loop_boundary (soft : SoftCfg)
    (hE : 2 ≤ soft.nvme_prp_entries) :
    ∀ (n : Nat) (chunks : List Chunk) (st : PrpState),
    chunks.length ≤ n → chunks ≠ [] →
    (∀ c ∈ chunks, c.addr ≠ 0) → (∀ c ∈ chunks, 0 < c.len) →
    (prp_list_loop soft chunks ((chunks.map Chunk.len).sum)
        (soft.nvme_prp_entries - 1) st).1 = 1 →
    ∃ ps : List Nat, ps ≠ [] ∧
      ps.length = (chunksSucc (soft.nvme_prp_entries - 2)
        (chunks.map Chunk.addr)).length ∧
      (prp_list_loop soft chunks ((chunks.map Chunk.len).sum)
          (soft.nvme_prp_entries - 1) st).2.pages =
        appendChain soft.nvme_prp_entries (prpPoolPhys soft) st.pages ps
          (chunksSucc (soft.nvme_prp_entries - 2)
            (chunks.map Chunk.addr)) ∧
      (prp_list_loop soft chunks ((chunks.map Chunk.len).sum)
          (soft.nvme_prp_entries - 1) st).2.cmd =
        (if st.pages.length = 0 then
          { st.cmd with
            prp2_lo := PHYS64_LO (prpPoolPhys soft (ps.headD 0)),
            prp2_hi := PHYS64_HI (prpPoolPhys soft (ps.headD 0)) }
         else st.cmd) := by
  intro n
  induction n with
  | zero =>
    intro chunks st hl hne _ _ _
    exact absurd (List.eq_nil_of_length_eq_zero (Nat.le_zero.mp hl)) hne
  | succ n ih =>
    intro chunks st hl hne haddr hlens hres
    rcases chunks with _ | ⟨c, rest⟩
    · exact absurd rfl hne
    · have hlen : 0 < c.len := hlens c (List.mem_cons_self c rest)
      have hc0 : c.addr ≠ 0 := haddr c (List.mem_cons_self c rest)
      have hcs : (List.map Chunk.len (c :: rest)).sum ≠ 0 := by
        simp only [List.map_cons, List.sum_cons]
        omega
      rcases halloc : nvme_prp_pool_alloc st.prp_pool_bitmap with _ | pb
      · have hval : (prp_list_loop soft (c :: rest)
            ((List.map Chunk.len (c :: rest)).sum)
            (soft.nvme_prp_entries - 1) st).1 = -1 := by
          unfold prp_list_loop
          rw [if_neg hcs]
          dsimp only
          rw [if_neg hc0, if_pos (le_refl (soft.nvme_prp_entries - 1)),
            halloc]
        rw [hval] at hres
        exact absurd hres (by norm_num)
      · obtain ⟨p, bm'⟩ := pb
        rcases hstore : nvme_io_cid_store_prp st.prpidx p with _ | prpidx'
        · have hval : (prp_list_loop soft (c :: rest)
              ((List.map Chunk.len (c :: rest)).sum)
              (soft.nvme_prp_entries - 1) st).1 = 0 := by
            unfold prp_list_loop
            rw [if_neg hcs]
            dsimp only
            rw [if_neg hc0, if_pos (le_refl (soft.nvme_prp_entries - 1)),
              halloc]
            dsimp only
            rw [hstore]
          rw [hval] at hres
          exact absurd hres (by norm_num)
        · rw [prp_loop_alloc_step soft c rest _ st p bm' prpidx' hcs hc0
            halloc hstore] at hres ⊢
          have hsub : (List.map Chunk.len (c :: rest)).sum - c.len =
              (rest.map Chunk.len).sum := by
            simp only [List.map_cons, List.sum_cons]
            omega
          rw [hsub] at hres ⊢
          have haddr' : ∀ x ∈ rest, x.addr ≠ 0 :=
            fun x hx => haddr x (List.mem_cons_of_mem c hx)
          have hlens' : ∀ x ∈ rest, 0 < x.len :=
            fun x hx => hlens x (List.mem_cons_of_mem c hx)
          by_cases hfits : rest.length ≤ soft.nvme_prp_entries - 2
          · rw [prp_loop_fill_fits soft rest 1 _ haddr' hlens'
              (by omega)] at hres ⊢
            have hgs : chunksSucc (soft.nvme_prp_entries - 2)
                ((c :: rest).map Chunk.addr) =
                [(c :: rest).map Chunk.addr] := by
              apply chunksSucc_of_short
              · simp
              · simp only [List.map_cons, List.length_cons,
                  List.length_map]
                omega
            refine ⟨[p], by simp, ?_, ?_, ?_⟩
            · rw [hgs]
              rfl
            · rw [hgs]
              dsimp only
              rw [setSeqLast_append]
              rw [appendChain_cons, appendChain_nil_ps, ite_setLastSlot]
              rw [List.map_cons, writeSeq_cons]
            · dsimp only
              rfl
          · push_neg at hfits
            rw [prp_loop_fill_to_boundary soft (soft.nvme_prp_entries - 2)
              rest 1 _ haddr' hlens' (by omega) (by omega) hfits]
              at hres ⊢
            have hdl : (rest.drop (soft.nvme_prp_entries - 2)).length ≤ n
                := by
              simp only [List.length_drop]
              simp only [List.length_cons] at hl
              omega
            have hdne : rest.drop (soft.nvme_prp_entries - 2) ≠ [] := by
              apply List.ne_nil_of_length_pos
              simp only [List.length_drop]
              omega
            obtain ⟨ps', hps'ne, hps'len, hpages', hcmd'⟩ :=
              ih (rest.drop (soft.nvme_prp_entries - 2)) _ hdl hdne
                (fun x hx => haddr' x (List.mem_of_mem_drop hx))
                (fun x hx => hlens' x (List.mem_of_mem_drop hx)) hres
            have hgs : chunksSucc (soft.nvme_prp_entries - 2)
                ((c :: rest).map Chunk.addr) =
                (c.addr :: (rest.take (soft.nvme_prp_entries - 2)).map
                    Chunk.addr) ::
                  chunksSucc (soft.nvme_prp_entries - 2)
                    ((rest.drop (soft.nvme_prp_entries - 2)).map
                      Chunk.addr) := by
              rw [List.map_cons, chunksSucc_cons, List.take_succ_cons,
                List.drop_succ_cons, List.map_take, List.map_drop]
            refine ⟨p :: ps', by simp, ?_, ?_, ?_⟩
            · rw [hgs, List.length_cons, List.length_cons, hps'len]
            · rw [hpages', hgs, appendChain_cons, ite_setLastSlot]
              congr 2
              dsimp only
              rw [setSeqLast_append, writeSeq_cons]
            · rw [hcmd']
              have hne5 : ¬ (setSeqLast
                  ((if st.pages.length = 0 then st.pages
                    else setLastSlot st.pages (soft.nvme_prp_entries - 1)
                      (prpPoolPhys soft p)) ++
                    [(p, (List.replicate soft.nvme_prp_entries 0).set 0
                      c.addr)]) 1
                  ((rest.take (soft.nvme_prp_entries - 2)).map
                    Chunk.addr)).length = 0 := by
                rw [setSeqLast_append]
                simp
              rw [if_neg hne5]
              dsimp only
              rw [show (p :: ps').headD 0 = p from rfl]

end NvmeDrv

namespace NvmeDrv

/-- Closed form of the PRP-list page layout: page `j` holds its group of
data pointers from slot 0 and, when another page follows, the next page's
physical address in slot `E - 1`. -/
def chainPages (E : Nat) (physOf : Nat → Nat) :
    List Nat → List (List Nat) → List (Nat × List Nat)
  | [], _ => []
  | _ :: _, [] => []
  | [p], g :: _ => [(p, writeSeq (List.replicate E 0) 0 g)]
  | p :: p' :: ps, g :: gs =>
      (p, (writeSeq (List.replicate E 0) 0 g).set (E - 1) (physOf p')) ::
        chainPages E physOf (p' :: ps) gs

theorem appendChain_acc_cons (E : Nat) (f : Nat → Nat) :
    ∀ (ps : List Nat) (gs : List (List Nat)) (P : List (Nat × List Nat))
      (p : Nat) (pg : List Nat) (q : Nat) (g : List Nat),
    ps.length = gs.length →
    appendChain E f (P ++ [(p, pg)]) (q :: ps) (g :: gs) =
      P ++ (p, pg.set (E - 1) (f q)) :: chainPages E f (q :: ps) (g :: gs)
    := by
  intro ps
  induction ps with
  | nil =>
    intro gs P p pg q g hlen
    have hgs : gs = [] := List.eq_nil_of_length_eq_zero hlen.symm
    subst hgs
    rw [appendChain_cons, setLastSlot_append, appendChain_nil_ps]
    simp [chainPages]
  | cons q' ps' ih =>
    intro gs P p pg q g hlen
    rcases gs with _ | ⟨g', gs'⟩
    · exact absurd hlen (by simp)
    · rw [appendChain_cons, setLastSlot_append]
      rw [show P ++ [(p, pg.set (E - 1) (f q))] ++
          [(q, writeSeq (List.replicate E 0) 0 g)] =
        (P ++ [(p, pg.set (E - 1) (f q))]) ++
          [(q, writeSeq (List.replicate E 0) 0 g)] from rfl]
      rw [ih gs' (P ++ [(p, pg.set (E - 1) (f q))]) q
        (writeSeq (List.replicate E 0) 0 g) q' g'
        (by simpa using hlen)]
      simp [chainPages]

/-- Starting from no pages, the loop's page construction is exactly
`chainPages`. -/
theorem appendChain_eq_chainPages (E : Nat) (f : Nat → Nat)
    (ps : List Nat) (gs : List (List Nat)) (hlen : ps.length = gs.length) :
    appendChain E f [] ps gs = chainPages E f ps gs := by
  rcases ps with _ | ⟨q, ps'⟩
  · rw [appendChain_nil_ps]
    rfl
  · rcases gs with _ | ⟨g, gs'⟩
    · exact absurd hlen (by simp)
    · rw [appendChain_cons, setLastSlot_nil, List.nil_append]
      rcases ps' with _ | ⟨q', ps''⟩
      · have hgs' : gs' = [] := by
          simpa using hlen.symm
        subst hgs'
        rw [appendChain_nil_ps]
        rfl
      · rcases gs' with _ | ⟨g', gs''⟩
        · exact absurd hlen (by simp)
        · rw [show ([(q, writeSeq (List.replicate E 0) 0 g)] :
              List (Nat × List Nat)) =
            [] ++ [(q, writeSeq (List.replicate E 0) 0 g)] from rfl]
          rw [appendChain_acc_cons E f ps'' gs'' [] q
            (writeSeq (List.replicate E 0) 0 g) q' g'
            (by simpa using hlen)]
          simp [chainPages]

theorem chainPages_length (E : Nat) (f : Nat → Nat) :
    ∀ (ps : List Nat) (gs : List (List Nat)), ps.length = gs.length →
      (chainPages E f ps gs).length = ps.length := by
  intro ps
  induction ps with
  | nil =>
    intro gs _
    rfl
  | cons p ps' ih =>
    intro gs hlen
    rcases gs with _ | ⟨g, gs'⟩
    · exact absurd hlen (by simp)
    · rcases ps' with _ | ⟨p', ps''⟩
      · rfl
      · rw [show chainPages E f (p :: p' :: ps'') (g :: gs') =
            (p, (writeSeq (List.replicate E 0) 0 g).set (E - 1) (f p')) ::
              chainPages E f (p' :: ps'') gs' from rfl]
        rw [List.length_cons, ih gs' (by simpa using hlen)]
        rfl

theorem chainPages_map_fst (E : Nat) (f : Nat → Nat) :
    ∀ (ps : List Nat) (gs : List (List Nat)), ps.length = gs.length →
      (chainPages E f ps gs).map Prod.fst = ps := by
  intro ps
  induction ps with
  | nil =>
    intro gs _
    rfl
  | cons p ps' ih =>
    intro gs hlen
    rcases gs with _ | ⟨g, gs'⟩
    · exact absurd hlen (by simp)
    · rcases ps' with _ | ⟨p', ps''⟩
      · rfl
      · rw [show chainPages E f (p :: p' :: ps'') (g :: gs') =
            (p, (writeSeq (List.replicate E 0) 0 g).set (E - 1) (f p')) ::
              chainPages E f (p' :: ps'') gs' from rfl]
        rw [List.map_cons, ih gs' (by simpa using hlen)]

theorem chainPages_getD_snd (E : Nat) (f : Nat → Nat) :
    ∀ (ps : List Nat) (gs : List (List Nat)) (j : Nat),
      ps.length = gs.length → j < ps.length →
      ((chainPages E f ps gs).getD j (0, [])).2 =
        (if j + 1 < ps.length then
          (writeSeq (List.replicate E 0) 0 (gs.getD j [])).set (E - 1)
            (f (ps.getD (j + 1) 0))
         else writeSeq (List.replicate E 0) 0 (gs.getD j [])) := by
  intro ps
  induction ps with
  | nil =>
    intro gs j _ hj
    exact absurd hj (by simp)
  | cons p ps' ih =>
    intro gs j hlen hj
    rcases gs with _ | ⟨g, gs'⟩
    · exact absurd hlen (by simp)
    · rcases ps' with _ | ⟨p', ps''⟩
      · have hj0 : j = 0 := by
          simp only [List.length_cons, List.length_nil] at hj
          omega
        subst hj0
        rw [if_neg (by simp)]
        rfl
      · rw [show chainPages E f (p :: p' :: ps'') (g :: gs') =
            (p, (writeSeq (List.replicate E 0) 0 g).set (E - 1) (f p')) ::
              chainPages E f (p' :: ps'') gs' from rfl]
        rcases j with _ | j
        · rw [if_pos (by simp), List.getD_cons_zero, List.getD_cons_succ,
            List.getD_cons_zero, List.getD_cons_zero]
        · rw [List.getD_cons_succ,
            ih gs' j (by simpa using hlen)
              (by simpa using Nat.lt_of_succ_lt_succ hj)]
          rw [List.getD_cons_succ, List.getD_cons_succ,
            List.getD_cons_succ]
          by_cases hlt : j + 1 < (p' :: ps'').length
          · rw [if_pos hlt, if_pos (by
              simp only [List.length_cons] at hlt ⊢
              omega)]
            rfl
          · rw [if_neg hlt, if_neg (by
              simp only [List.length_cons] at hlt ⊢
              omega)]

end NvmeDrv

namespace NvmeDrv

theorem writeSeq_length :
    ∀ (vals page : List Nat) (start : Nat),
      (writeSeq page start vals).length = page.length := by
  intro vals
  induction vals with
  | nil =>
    intro page start
    rfl
  | cons v vs ih =>
    intro page start
    rw [writeSeq_cons, ih, List.length_set]

theorem writeSeq_getD_lt :
    ∀ (vals page : List Nat) (start i : Nat), i < start →
      (writeSeq page start vals).getD i 0 = page.getD i 0 := by
  intro vals
  induction vals with
  | nil =>
    intro page start i _
    rfl
  | cons v vs ih =>
    intro page start i hi
    rw [writeSeq_cons, ih (page.set start v) (start + 1) i (by omega),
      getD_set_ne page start i v 0 (by omega)]

theorem writeSeq_getD_in :
    ∀ (vals page : List Nat) (start i : Nat), start ≤ i →
      i - start < vals.length → i < page.length →
      (writeSeq page start vals).getD i 0 = vals.getD (i - start) 0 := by
  intro vals
  induction vals with
  | nil =>
    intro page start i _ hlt _
    exact absurd hlt (by simp)
  | cons v vs ih =>
    intro page start i hle hlt hpage
    rw [writeSeq_cons]
    rcases eq_or_ne i start with rfl | hne
    · rw [writeSeq_getD_lt vs (page.set i v) (i + 1) i (by omega),
        getD_set_self page i v 0 hpage, Nat.sub_self, List.getD_cons_zero]
    · have hgt : start < i := by omega
      rw [ih (page.set start v) (start + 1) i (by omega) (by
          simp only [List.length_cons] at hlt
          omega) (by
          rw [List.length_set]
          exact hpage)]
      rw [show i - start = (i - (start + 1)) + 1 by omega,
        List.getD_cons_succ]

end NvmeDrv

namespace NvmeDrv

theorem getD_take {α : Type} (l : List α) (n i : Nat) (d : α)
    (h : i < n) : (l.take n).getD i d = l.getD i d := by
  induction l generalizing n i with
  | nil => simp [List.take_nil]
  | cons x xs ih =>
    rcases n with _ | n
    · omega
    · rcases i with _ | i
      · rfl
      · rw [List.take_succ_cons, List.getD_cons_succ, List.getD_cons_succ,
          ih n i (by omega)]

theorem getD_drop {α : Type} (l : List α) (n i : Nat) (d : α) :
    (l.drop n).getD i d = l.getD (n + i) d := by
  induction l generalizing n with
  | nil => simp [List.drop_nil]
  | cons x xs ih =>
    rcases n with _ | n
    · rw [List.drop_zero, Nat.zero_add]
    · rw [List.drop_succ_cons, ih n,
        show n + 1 + i = (n + i) + 1 by omega, List.getD_cons_succ]

theorem getD_map_fst :
    ∀ (P : List (Nat × List Nat)) (j : Nat),
      (P.map Prod.fst).getD j 0 = (P.getD j (0, ([] : List Nat))).1 := by
  intro P
  induction P with
  | nil =>
    intro j
    rfl
  | cons pr P ih =>
    intro j
    rcases j with _ | j
    · rfl
    · rw [List.map_cons, List.getD_cons_succ, List.getD_cons_succ, ih j]

end NvmeDrv

namespace NvmeDrv

/-- C5: PRP construction layout for a sub-command of byte length
`sr_buflen` built over positive chunks of at most `nvme_page_size`, with
nonzero DMA addresses, within the per-command transfer cap.  If the first
chunk covers the whole length, PRP1 is its address and PRP2 = 0; else if
the remainder fits one more page, PRP2 is the second chunk's address and
no pool page is allocated (pool bitmap and pages unchanged); otherwise, on
success PRP2 points to the first allocated PRP-list page, the pages' slots
hold the remaining chunk addresses in order (address `i` at slot
`i % (E-1)` of page `i / (E-1)`), every page has `E` slots, each page
followed by another holds exactly `E - 1` data pointers with slot `E - 1`
holding the next page's physical address, and the final page holds the
remaining at most `E - 1 ≤ E` data pointers, where
`E = nvme_prp_entries = nvme_page_size / 8`. -/
theorem build_prps_prp_layout (soft : SoftCfg) (req : ScsiRequest)
    (cmd : NvmeCommand) (chunks : List Chunk) (pool_bitmap : Nat)
    (prpidx : List Int)
    (hE : 2 ≤ soft.nvme_prp_entries)
    (hE8 : soft.nvme_prp_entries = soft.nvme_page_size / 8)
    (hsum : (chunks.map Chunk.len).sum = req.sr_buflen)
    (hL0 : req.sr_buflen ≠ 0)
    (hLlt : req.sr_buflen < 2 ^ 32)
    (hmtb : req.sr_buflen ≤
      soft.max_transfer_blocks * soft.block_size % UINT32_MOD)
    (haddr : ∀ c ∈ chunks, c.addr ≠ 0)
    (hlens : ∀ c ∈ chunks, 0 < c.len)
    (hpage : ∀ c ∈ chunks, c.len ≤ soft.nvme_page_size) :
    (∀ c0, chunks = [c0] →
      nvme_build_prps_from_alenlist soft req cmd chunks 0 pool_bitmap
          prpidx =
        (1, { cmd := { cmd with
                prp1_lo := PHYS64_LO c0.addr, prp1_hi := PHYS64_HI c0.addr,
                prp2_lo := 0, prp2_hi := 0 },
              prp_pool_bitmap := pool_bitmap, prpidx := prpidx,
              pages := [], req := req })) ∧
    (∀ c0 c1 rest2, chunks = c0 :: c1 :: rest2 →
      req.sr_buflen - c0.len ≤ soft.nvme_page_size →
      nvme_build_prps_from_alenlist soft req cmd chunks 0 pool_bitmap
          prpidx =
        (1, { cmd := { cmd with
                prp1_lo := PHYS64_LO c0.addr, prp1_hi := PHYS64_HI c0.addr,
                prp2_lo := PHYS64_LO c1.addr,
                prp2_hi := PHYS64_HI c1.addr },
              prp_pool_bitmap := pool_bitmap, prpidx := prpidx,
              pages := [], req := req })) ∧
    (∀ c0 rest, chunks = c0 :: rest →
      soft.nvme_page_size < req.sr_buflen - c0.len →
      (nvme_build_prps_from_alenlist soft req cmd chunks 0 pool_bitmap
        prpidx).1 = 1 →
      (nvme_build_prps_from_alenlist soft req cmd chunks 0 pool_bitmap
        prpidx).2.cmd.prp1_lo = PHYS64_LO c0.addr ∧
      (nvme_build_prps_from_alenlist soft req cmd chunks 0 pool_bitmap
        prpidx).2.cmd.prp1_hi = PHYS64_HI c0.addr ∧
      (nvme_build_prps_from_alenlist soft req cmd chunks 0 pool_bitmap
        prpidx).2.pages ≠ [] ∧
      (nvme_build_prps_from_alenlist soft req cmd chunks 0 pool_bitmap
        prpidx).2.cmd.prp2_lo = PHYS64_LO (prpPoolPhys soft
          (((nvme_build_prps_from_alenlist soft req cmd chunks 0
            pool_bitmap prpidx).2.pages.getD 0 (0, [])).1)) ∧
      (nvme_build_prps_from_alenlist soft req cmd chunks 0 pool_bitmap
        prpidx).2.cmd.prp2_hi = PHYS64_HI (prpPoolPhys soft
          (((nvme_build_prps_from_alenlist soft req cmd chunks 0
            pool_bitmap prpidx).2.pages.getD 0 (0, [])).1)) ∧
      (nvme_build_prps_from_alenlist soft req cmd chunks 0 pool_bitmap
        prpidx).2.pages.length =
        (rest.length + (soft.nvme_prp_entries - 2)) /
          (soft.nvme_prp_entries - 1) ∧
      (∀ j, j < (nvme_build_prps_from_alenlist soft req cmd chunks 0
          pool_bitmap prpidx).2.pages.length →
        (((nvme_build_prps_from_alenlist soft req cmd chunks 0 pool_bitmap
          prpidx).2.pages.getD j (0, [])).2).length =
          soft.nvme_prp_entries) ∧
      (∀ j, j + 1 < (nvme_build_prps_from_alenlist soft req cmd chunks 0
          pool_bitmap prpidx).2.pages.length →
        (((nvme_build_prps_from_alenlist soft req cmd chunks 0 pool_bitmap
          prpidx).2.pages.getD j (0, [])).2).getD
            (soft.nvme_prp_entries - 1) 0 =
          prpPoolPhys soft
            (((nvme_build_prps_from_alenlist soft req cmd chunks 0
              pool_bitmap prpidx).2.pages.getD (j + 1) (0, [])).1) ∧
        (soft.nvme_prp_entries - 1) * (j + 1) ≤ rest.length) ∧
      rest.length ≤ (nvme_build_prps_from_alenlist soft req cmd chunks 0
        pool_bitmap prpidx).2.pages.length *
        (soft.nvme_prp_entries - 1) ∧
      (∀ i, i < rest.length →
        (((nvme_build_prps_from_alenlist soft req cmd chunks 0 pool_bitmap
          prpidx).2.pages.getD (i / (soft.nvme_prp_entries - 1))
            (0, [])).2).getD (i % (soft.nvme_prp_entries - 1)) 0 =
          (rest.map Chunk.addr).getD i 0)) := by
  have hLlt' : req.sr_buflen < UINT32_MOD := by
    simpa [UINT32_MOD] using hLlt
  refine ⟨?_, ?_, ?_⟩
  · intro c0 hch
    subst hch
    have hc0 : c0.addr ≠ 0 := haddr c0 (List.mem_cons_self c0 [])
    simp only [List.map_cons, List.map_nil, List.sum_cons, List.sum_nil,
      Nat.add_zero] at hsum
    unfold nvme_build_prps_from_alenlist
    rw [if_neg hL0]
    dsimp only
    simp only [Nat.zero_mul, Nat.zero_mod, Nat.sub_zero,
      Nat.add_mod_right]
    rw [Nat.mod_eq_of_lt hLlt']
    rw [if_neg (by omega :
      ¬ soft.max_transfer_blocks * soft.block_size % UINT32_MOD <
        req.sr_buflen)]
    rw [if_neg hc0]
    rw [if_pos (by omega : req.sr_buflen - c0.len = 0)]
  · intro c0 c1 rest2 hch h2
    subst hch
    have hc0 : c0.addr ≠ 0 := haddr c0 (List.mem_cons_self c0 (c1 :: rest2))
    have hc1 : c1.addr ≠ 0 :=
      haddr c1 (List.mem_cons_of_mem c0 (List.mem_cons_self c1 rest2))
    have hc1len : 0 < c1.len :=
      hlens c1 (List.mem_cons_of_mem c0 (List.mem_cons_self c1 rest2))
    simp only [List.map_cons, List.sum_cons] at hsum
    unfold nvme_build_prps_from_alenlist
    rw [if_neg hL0]
    dsimp only
    simp only [Nat.zero_mul, Nat.zero_mod, Nat.sub_zero,
      Nat.add_mod_right]
    rw [Nat.mod_eq_of_lt hLlt']
    rw [if_neg (by omega :
      ¬ soft.max_transfer_blocks * soft.block_size % UINT32_MOD <
        req.sr_buflen)]
    rw [if_neg hc0]
    rw [if_neg (by omega : ¬ req.sr_buflen - c0.len = 0)]
    rw [if_pos h2]
    rw [if_neg hc1]
  · intro c0 rest hch h3 hres
    subst hch
    have hc0 : c0.addr ≠ 0 := haddr c0 (List.mem_cons_self c0 rest)
    simp only [List.map_cons, List.sum_cons] at hsum
    have hB : nvme_build_prps_from_alenlist soft req cmd (c0 :: rest) 0
        pool_bitmap prpidx =
        prp_list_loop soft rest ((rest.map Chunk.len).sum)
          (soft.nvme_prp_entries - 1)
          { cmd := { cmd with
              prp1_lo := PHYS64_LO c0.addr, prp1_hi := PHYS64_HI c0.addr,
              prp2_lo := 0, prp2_hi := 0 },
            prp_pool_bitmap := pool_bitmap, prpidx := prpidx,
            pages := [], req := req } := by
      unfold nvme_build_prps_from_alenlist
      rw [if_neg hL0]
      dsimp only
      simp only [Nat.zero_mul, Nat.zero_mod, Nat.sub_zero,
        Nat.add_mod_right]
      rw [Nat.mod_eq_of_lt hLlt']
      rw [if_neg (by omega :
        ¬ soft.max_transfer_blocks * soft.block_size % UINT32_MOD <
          req.sr_buflen)]
      rw [if_neg hc0]
      rw [if_neg (by omega : ¬ req.sr_buflen - c0.len = 0)]
      rw [if_neg (by omega :
        ¬ req.sr_buflen - c0.len ≤ soft.nvme_page_size)]
      rw [show req.sr_buflen - c0.len = (rest.map Chunk.len).sum by omega]
    rw [hB] at hres ⊢
    have hrestne : rest ≠ [] := by
      intro hnil
      rw [hnil] at hsum
      simp only [List.map_nil, List.sum_nil, Nat.add_zero] at hsum
      omega
    obtain ⟨ps, hpsne, hpslen, hpages, hcmd⟩ :=
      prp_loop_boundary soft hE rest.length rest _ (le_refl _) hrestne
        (fun x hx => haddr x (List.mem_cons_of_mem c0 hx))
        (fun x hx => hlens x (List.mem_cons_of_mem c0 hx)) hres
    rw [if_pos (show ([] : List (Nat × List Nat)).length = 0 from rfl)]
      at hcmd
    rw [appendChain_eq_chainPages _ _ _ _ hpslen] at hpages
    have hm1 : soft.nvme_prp_entries - 2 + 1 = soft.nvme_prp_entries - 1
        := by omega
    have hgslen : (chunksSucc (soft.nvme_prp_entries - 2)
        (rest.map Chunk.addr)).length =
        (rest.length + (soft.nvme_prp_entries - 2)) /
          (soft.nvme_prp_entries - 1) := by
      rw [chunksSucc_length (soft.nvme_prp_entries - 2)
        ((rest.map Chunk.addr).length) (rest.map Chunk.addr) (le_refl _)]
      rw [hm1, List.length_map]
    have hPlen : (prp_list_loop soft rest ((rest.map Chunk.len).sum)
        (soft.nvme_prp_entries - 1)
        { cmd := { cmd with
            prp1_lo := PHYS64_LO c0.addr, prp1_hi := PHYS64_HI c0.addr,
            prp2_lo := 0, prp2_hi := 0 },
          prp_pool_bitmap := pool_bitmap, prpidx := prpidx,
          pages := [], req := req }).2.pages.length = ps.length := by
      rw [hpages]
      exact chainPages_length _ _ ps _ hpslen
    have hmap : (prp_list_loop soft rest ((rest.map Chunk.len).sum)
        (soft.nvme_prp_entries - 1)
        { cmd := { cmd with
            prp1_lo := PHYS64_LO c0.addr, prp1_hi := PHYS64_HI c0.addr,
            prp2_lo := 0, prp2_hi := 0 },
          prp_pool_bitmap := pool_bitmap, prpidx := prpidx,
          pages := [], req := req }).2.pages.map Prod.fst = ps := by
      rw [hpages]
      exact chainPages_map_fst _ _ ps _ hpslen
    have hgetfst : ∀ j, ((prp_list_loop soft rest
        ((rest.map Chunk.len).sum) (soft.nvme_prp_entries - 1)
        { cmd := { cmd with
            prp1_lo := PHYS64_LO c0.addr, prp1_hi := PHYS64_HI c0.addr,
            prp2_lo := 0, prp2_hi := 0 },
          prp_pool_bitmap := pool_bitmap, prpidx := prpidx,
          pages := [], req := req }).2.pages.getD j (0, [])).1 =
        ps.getD j 0 := by
      intro j
      rw [← getD_map_fst, hmap]
    have hhead : ps.headD 0 = ps.getD 0 0 := by
      rcases ps with _ | ⟨p0, ps'⟩
      · exact absurd rfl hpsne
      · rfl
    have hkval : (prp_list_loop soft rest ((rest.map Chunk.len).sum)
        (soft.nvme_prp_entries - 1)
        { cmd := { cmd with
            prp1_lo := PHYS64_LO c0.addr, prp1_hi := PHYS64_HI c0.addr,
            prp2_lo := 0, prp2_hi := 0 },
          prp_pool_bitmap := pool_bitmap, prpidx := prpidx,
          pages := [], req := req }).2.pages.length =
        (rest.length + (soft.nvme_prp_entries - 2)) /
          (soft.nvme_prp_entries - 1) :=
      hPlen.trans (hpslen.trans hgslen)
    have hcount : rest.length ≤ (prp_list_loop soft rest
        ((rest.map Chunk.len).sum) (soft.nvme_prp_entries - 1)
        { cmd := { cmd with
            prp1_lo := PHYS64_LO c0.addr, prp1_hi := PHYS64_HI c0.addr,
            prp2_lo := 0, prp2_hi := 0 },
          prp_pool_bitmap := pool_bitmap, prpidx := prpidx,
          pages := [], req := req }).2.pages.length *
        (soft.nvme_prp_entries - 1) := by
      rw [hkval]
      have hdm := Nat.div_add_mod
        (rest.length + (soft.nvme_prp_entries - 2))
        (soft.nvme_prp_entries - 1)
      have hmod : (rest.length + (soft.nvme_prp_entries - 2)) %
          (soft.nvme_prp_entries - 1) < soft.nvme_prp_entries - 1 :=
        Nat.mod_lt _ (by omega)
      have hcomm : (soft.nvme_prp_entries - 1) *
          ((rest.length + (soft.nvme_prp_entries - 2)) /
            (soft.nvme_prp_entries - 1)) =
          ((rest.length + (soft.nvme_prp_entries - 2)) /
            (soft.nvme_prp_entries - 1)) *
          (soft.nvme_prp_entries - 1) := Nat.mul_comm _ _
      omega
    refine ⟨by rw [hcmd], by rw [hcmd], ?_, ?_, ?_, hkval, ?_, ?_,
      hcount, ?_⟩
    · apply List.ne_nil_of_length_pos
      rw [hPlen]
      exact List.length_pos.mpr hpsne
    · rw [hcmd, hgetfst 0, hhead]
    · rw [hcmd, hgetfst 0, hhead]
    · intro j hj
      rw [hPlen] at hj
      rw [hpages,
        chainPages_getD_snd soft.nvme_prp_entries (prpPoolPhys soft)
          ps _ j hpslen hj]
      by_cases hlt : j + 1 < ps.length
      · rw [if_pos hlt, List.length_set, writeSeq_length,
          List.length_replicate]
      · rw [if_neg hlt, writeSeq_length, List.length_replicate]
    · intro j hj
      rw [hPlen] at hj
      constructor
      · rw [hpages,
          chainPages_getD_snd soft.nvme_prp_entries (prpPoolPhys soft)
            ps _ j hpslen (by omega)]
        rw [if_pos hj]
        rw [getD_set_self _ _ _ _ (by
          rw [writeSeq_length, List.length_replicate]
          omega)]
        rw [← getD_map_fst, chainPages_map_fst _ _ ps _ hpslen]
      · have hjk : j + 2 ≤ (rest.length + (soft.nvme_prp_entries - 2)) /
            (soft.nvme_prp_entries - 1) := by
          rw [← hgslen, ← hpslen]
          omega
        rw [Nat.le_div_iff_mul_le (by omega : 0 < soft.nvme_prp_entries
          - 1)] at hjk
        have hexp : (j + 2) * (soft.nvme_prp_entries - 1) =
            (soft.nvme_prp_entries - 1) * (j + 1) +
              (soft.nvme_prp_entries - 1) := by ring
        omega
    · intro i hi
      have h0E : 0 < soft.nvme_prp_entries - 1 := by omega
      have hdm := Nat.div_add_mod i (soft.nvme_prp_entries - 1)
      have hs : i % (soft.nvme_prp_entries - 1) <
          soft.nvme_prp_entries - 1 := Nat.mod_lt _ h0E
      have hdml : i / (soft.nvme_prp_entries - 1) *
          (soft.nvme_prp_entries - 1) ≤ i := Nat.div_mul_le_self _ _
      have hjk : i / (soft.nvme_prp_entries - 1) < ps.length := by
        rw [← hPlen]
        apply lt_of_mul_lt_mul_right _ (Nat.zero_le
          (soft.nvme_prp_entries - 1))
        rw [hPlen] at hcount ⊢
        calc i / (soft.nvme_prp_entries - 1) *
            (soft.nvme_prp_entries - 1) ≤ i := hdml
        _ < rest.length := hi
        _ ≤ ps.length * (soft.nvme_prp_entries - 1) := hcount
      have hgj : (chunksSucc (soft.nvme_prp_entries - 2)
          (rest.map Chunk.addr)).getD
            (i / (soft.nvme_prp_entries - 1)) [] =
          ((rest.map Chunk.addr).drop
            ((i / (soft.nvme_prp_entries - 1)) *
              (soft.nvme_prp_entries - 1))).take
            (soft.nvme_prp_entries - 1) := by
        rw [chunksSucc_getD (soft.nvme_prp_entries - 2)
          ((rest.map Chunk.addr).length) (rest.map Chunk.addr)
          (i / (soft.nvme_prp_entries - 1)) (le_refl _)
          (by rw [← hpslen]; exact hjk), hm1]
      have hcomm2 : (soft.nvme_prp_entries - 1) *
          (i / (soft.nvme_prp_entries - 1)) =
          (i / (soft.nvme_prp_entries - 1)) *
            (soft.nvme_prp_entries - 1) := Nat.mul_comm _ _
      have hsn : i % (soft.nvme_prp_entries - 1) <
          (((rest.map Chunk.addr).drop
            ((i / (soft.nvme_prp_entries - 1)) *
              (soft.nvme_prp_entries - 1))).take
            (soft.nvme_prp_entries - 1)).length := by
        rw [List.length_take, List.length_drop, List.length_map]
        apply lt_min_iff.mpr
        exact ⟨hs, by omega⟩
      have hval : (((rest.map Chunk.addr).drop
          ((i / (soft.nvme_prp_entries - 1)) *
            (soft.nvme_prp_entries - 1))).take
          (soft.nvme_prp_entries - 1)).getD
            (i % (soft.nvme_prp_entries - 1)) 0 =
          (rest.map Chunk.addr).getD i 0 := by
        rw [getD_take _ _ _ _ hs, getD_drop]
        rw [show i / (soft.nvme_prp_entries - 1) *
            (soft.nvme_prp_entries - 1) +
            i % (soft.nvme_prp_entries - 1) = i by omega]
      rw [hpages,
        chainPages_getD_snd soft.nvme_prp_entries (prpPoolPhys soft)
          ps _ (i / (soft.nvme_prp_entries - 1)) hpslen hjk]
      by_cases hlt : i / (soft.nvme_prp_entries - 1) + 1 < ps.length
      · rw [if_pos hlt,
          getD_set_ne _ _ _ _ _ (by omega :
            soft.nvme_prp_entries - 1 ≠ i % (soft.nvme_prp_entries - 1))]
        rw [writeSeq_getD_in _ _ 0 (i % (soft.nvme_prp_entries - 1))
          (Nat.zero_le _) (by
            rw [Nat.sub_zero, hgj]
            exact hsn) (by
            rw [List.length_replicate]
            omega)]
        rw [Nat.sub_zero, hgj, hval]
      · rw [if_neg hlt]
        rw [writeSeq_getD_in _ _ 0 (i % (soft.nvme_prp_entries - 1))
          (Nat.zero_le _) (by
            rw [Nat.sub_zero, hgj]
            exact hsn) (by
            rw [List.length_replicate]
            omega)]
        rw [Nat.sub_zero, hgj, hval]

end NvmeDrv

namespace NvmeDrv

/-- Concrete configuration for exercising the PRP-list path: 24-byte pages
with `E = 24/8 = 3` PRP entries per list page. -/
def c5soft : SoftCfg :=
  { max_transfer_blocks := 100, block_size := 8, nvme_page_size := 24,
    nvme_prp_entries := 3, prp_pool_phys := 4096 }

def c5req : ScsiRequest := { sr_buflen := 120 }

/-- A 120-byte transfer in five page-sized chunks: the remainder after the
first chunk (96 bytes) needs a PRP list of two pages. -/
def c5chunks : List Chunk :=
  [⟨40960, 24⟩, ⟨45056, 24⟩, ⟨49152, 24⟩, ⟨53248, 24⟩, ⟨57344, 24⟩]


end NvmeDrv

namespace NvmeDrv

/-- Intermediate loop states of the concrete run: after PRP1 extraction,
after each pool-page allocation and page fill (`E = 3`, pool pages at
physical 4096 + 24·i, pool bitmap 3 = pages 0 and 1 free). -/
def c5st1 : PrpState :=
  { cmd := { prp1_lo := 40960 }, prp_pool_bitmap := 3,
    prpidx := [-1, -1, -1], pages := [], req := c5req }

def c5stA : PrpState :=
  { cmd := { prp1_lo := 40960, prp2_lo := 4096 }, prp_pool_bitmap := 2,
    prpidx := [0, -1, -1], pages := [(0, [45056, 0, 0])], req := c5req }

def c5stB : PrpState :=
  { cmd := { prp1_lo := 40960, prp2_lo := 4096 }, prp_pool_bitmap := 2,
    prpidx := [0, -1, -1], pages := [(0, [45056, 49152, 0])],
    req := c5req }

def c5stC : PrpState :=
  { cmd := { prp1_lo := 40960, prp2_lo := 4096 }, prp_pool_bitmap := 0,
    prpidx := [0, 1, -1],
    pages := [(0, [45056, 49152, 4120]), (1, [53248, 0, 0])],
    req := c5req }

def c5stD : PrpState :=
  { cmd := { prp1_lo := 40960, prp2_lo := 4096 }, prp_pool_bitmap := 0,
    prpidx := [0, 1, -1],
    pages := [(0, [45056, 49152, 4120]), (1, [53248, 57344, 0])],
    req := c5req }

theorem build_prps_prp_layout_witness :
    (nvme_build_prps_from_alenlist c5soft c5req {} c5chunks 0 3
      [-1, -1, -1]).2.pages.length =
      (4 + (c5soft.nvme_prp_entries - 2)) /
        (c5soft.nvme_prp_entries - 1) ∧
    (((nvme_build_prps_from_alenlist c5soft c5req {} c5chunks 0 3
      [-1, -1, -1]).2.pages.getD 0 (0, [])).2).getD
        (c5soft.nvme_prp_entries - 1) 0 =
      prpPoolPhys c5soft
        (((nvme_build_prps_from_alenlist c5soft c5req {} c5chunks 0 3
          [-1, -1, -1]).2.pages.getD 1 (0, [])).1) := by
  have hB : nvme_build_prps_from_alenlist c5soft c5req {} c5chunks 0 3
      [-1, -1, -1] =
      prp_list_loop c5soft
        [⟨45056, 24⟩, ⟨49152, 24⟩, ⟨53248, 24⟩, ⟨57344, 24⟩] 96
        (c5soft.nvme_prp_entries - 1) c5st1 := by
    rw [show c5chunks = (⟨40960, 24⟩ : Chunk) ::
      [⟨45056, 24⟩, ⟨49152, 24⟩, ⟨53248, 24⟩, ⟨57344, 24⟩] from rfl]
    unfold nvme_build_prps_from_alenlist
    rw [if_neg (show ¬ c5req.sr_buflen = 0 by decide)]
    dsimp only
    simp only [Nat.zero_mul, Nat.zero_mod, Nat.sub_zero,
      Nat.add_mod_right]
    rw [Nat.mod_eq_of_lt (show c5req.sr_buflen < UINT32_MOD by decide)]
    rw [if_neg (show ¬ c5soft.max_transfer_blocks * c5soft.block_size %
      UINT32_MOD < c5req.sr_buflen by decide)]
    rw [if_neg (show ¬ (40960 : Nat) = 0 by decide)]
    rw [if_neg (show ¬ c5req.sr_buflen - 24 = 0 by decide)]
    rw [if_neg (show ¬ c5req.sr_buflen - 24 ≤ c5soft.nvme_page_size
      by decide)]
    rw [show c5req.sr_buflen - 24 = 96 from rfl]
    rfl
  have h2 : prp_list_loop c5soft
      [⟨45056, 24⟩, ⟨49152, 24⟩, ⟨53248, 24⟩, ⟨57344, 24⟩] 96
      (c5soft.nvme_prp_entries - 1) c5st1 =
      prp_list_loop c5soft [⟨49152, 24⟩, ⟨53248, 24⟩, ⟨57344, 24⟩] 72 1
        c5stA := by
    rw [prp_loop_alloc_step c5soft ⟨45056, 24⟩
      [⟨49152, 24⟩, ⟨53248, 24⟩, ⟨57344, 24⟩] 96 c5st1 0 2 [0, -1, -1]
      (by decide) (by decide)
      (show nvme_prp_pool_alloc c5st1.prp_pool_bitmap = some (0, 2)
        from rfl)
      (show nvme_io_cid_store_prp c5st1.prpidx 0 = some [0, -1, -1]
        from rfl)]
    rfl
  have h3 : prp_list_loop c5soft
      [⟨49152, 24⟩, ⟨53248, 24⟩, ⟨57344, 24⟩] 72 1 c5stA =
      prp_list_loop c5soft [⟨53248, 24⟩, ⟨57344, 24⟩] 48
        (c5soft.nvme_prp_entries - 1) c5stB := by
    rw [show (72 : Nat) =
      (([⟨49152, 24⟩, ⟨53248, 24⟩, ⟨57344, 24⟩] :
        List Chunk).map Chunk.len).sum from rfl]
    rw [prp_loop_fill_to_boundary c5soft 1
      [⟨49152, 24⟩, ⟨53248, 24⟩, ⟨57344, 24⟩] 1 c5stA (by decide)
      (by decide) (by decide) (by decide) (by decide)]
    rfl
  have h4 : prp_list_loop c5soft [⟨53248, 24⟩, ⟨57344, 24⟩] 48
      (c5soft.nvme_prp_entries - 1) c5stB =
      prp_list_loop c5soft [⟨57344, 24⟩] 24 1 c5stC := by
    rw [prp_loop_alloc_step c5soft ⟨53248, 24⟩ [⟨57344, 24⟩] 48 c5stB 1 0
      [0, 1, -1] (by decide) (by decide)
      (show nvme_prp_pool_alloc c5stB.prp_pool_bitmap = some (1, 0)
        from rfl)
      (show nvme_io_cid_store_prp c5stB.prpidx 1 = some [0, 1, -1]
        from rfl)]
    rfl
  have h5 : prp_list_loop c5soft [⟨57344, 24⟩] 24 1 c5stC = (1, c5stD)
      := by
    nth_rewrite 2 [show (24 : Nat) =
      (([⟨57344, 24⟩] : List Chunk).map Chunk.len).sum from rfl]
    rw [prp_loop_fill_fits c5soft [⟨57344, 24⟩] 1 c5stC (by decide)
      (by decide) (by decide)]
    rfl
  have hres : (nvme_build_prps_from_alenlist c5soft c5req {} c5chunks 0 3
      [-1, -1, -1]).1 = 1 := by
    rw [hB, h2, h3, h4, h5]
  have h := (build_prps_prp_layout c5soft c5req {} c5chunks 3
    [-1, -1, -1] (by decide) (by decide) (by decide) (by decide)
    (by decide) (by decide) (by decide) (by decide) (by decide)).2.2
    ⟨40960, 24⟩ [⟨45056, 24⟩, ⟨49152, 24⟩, ⟨53248, 24⟩, ⟨57344, 24⟩]
    rfl (by decide) hres
  refine ⟨h.2.2.2.2.2.1, ?_⟩
  have hlen := h.2.2.2.2.2.1
  have hj : 0 + 1 < (nvme_build_prps_from_alenlist c5soft c5req {}
      c5chunks 0 3 [-1, -1, -1]).2.pages.length := by
    rw [hlen]
    decide
  exact (h.2.2.2.2.2.2.2.1 0 hj).1

end NvmeDrv
